import Mathlib

/-!
Verification of the interview/prompt-assembly engine of the
`sd-prompt-generator` repository.

The TypeScript sources `src/services/promptAssembler.ts` and
`src/hooks/useInterviewEngine.ts` are shallowly embedded here:

* JavaScript strings are modelled as `List Char` (`JStr`); `toLowerCase`
  is modelled on the ASCII range (code points outside `A`–`Z` are left
  unchanged), `trim` strips the usual whitespace characters from both
  ends, `includes` is the substring test.
* JavaScript `Map`/`Set` (which preserve insertion order, with `set`
  updating in place) are modelled as association lists with
  order-preserving update.
* Numeric weight values are modelled as rationals; `Number.toFixed(2)`
  is modelled after the ECMAScript algorithm (round to the nearest
  hundredth, ties away from zero toward +infinity on the magnitude,
  sign prepended), which agrees with it on the decimally-representable
  values exercised here.
* The fresh identifiers that `commitCurrentSelections` builds from
  `Date.now()`/`Math.random()` are supplied as explicit parameters.
* React's `useState` functional updates within one engine operation are
  applied sequentially to the state, while plain reads inside the same
  operation see the state captured at the start of the call, exactly as
  the hook's closures do.
-/

/-- A JavaScript string, modelled as its list of characters. -/
abbrev JStr := List Char

/-- `c` is an ASCII uppercase letter (`A`–`Z`). -/
def isUpperA (c : Char) : Bool := decide (65 ≤ c.toNat ∧ c.toNat ≤ 90)

/-- One character of JS `toLowerCase`, modelled on the ASCII range. -/
def lowerChar (c : Char) : Char :=
  if 65 ≤ c.toNat ∧ c.toNat ≤ 90 then Char.ofNat (c.toNat + 32) else c

/-- JS `String.prototype.toLowerCase` (ASCII range). -/
def jsToLower (s : JStr) : JStr := s.map lowerChar

/-- Strip leading whitespace. -/
def trimLeftL (s : JStr) : JStr := s.dropWhile Char.isWhitespace

/-- JS `String.prototype.trim`: strip whitespace from both ends. -/
def jsTrim (s : JStr) : JStr := (trimLeftL (trimLeftL s).reverse).reverse

/-- JS `hay.includes(needle)` (substring test). -/
def jsIncludes (hay needle : JStr) : Bool := decide (needle <:+: hay)

/-- JS `s.startsWith(p)`. -/
def jsStartsWith (s p : JStr) : Bool := decide (p <+: s)

/-- JS truthiness of an optional string: `undefined` and `""` are falsy. -/
def truthyS : Option JStr → Bool
  | none => false
  | some s => !s.isEmpty

/-- JS `xs.join(", ")`. -/
def joinComma (parts : List JStr) : JStr := List.intercalate (", ".data) parts

/-! ### `promptAssembler.ts`: constant tables -/

/-- `ABSTRACT_ANSWERS` (the intensity-adjective catalogue). -/
def ABSTRACT_ANSWERS : List JStr :=
  ["subtle".data, "moderate".data, "pronounced".data, "strong".data,
   "focused".data, "natural".data, "intense".data, "slight".data,
   "minimal".data, "extreme".data, "soft".data, "hard".data]

/-- `BREAST_SHAPE_KEYWORDS`. -/
def BREAST_SHAPE_KEYWORDS : List JStr :=
  ["round".data, "teardrop".data, "full".data, "shallow".data, "athletic".data,
   "wide-set".data, "close-set".data, "asymmetrical".data, "augmented".data,
   "natural".data]

/-! ### `expandAbstractAnswer` -/

/-- The anatomical bust/chest context heuristic of `expandAbstractAnswer`
(the five substring tests on the lower-cased question text). -/
def breastContextB (q : JStr) : Bool :=
  jsIncludes q ("breast".data) || jsIncludes q ("bust".data) ||
  jsIncludes q ("chest anatomy".data) || jsIncludes q ("upper torso".data) ||
  jsIncludes q ("torso shape".data)

/-- The body of `expandAbstractAnswer` after the early `return answer`
(the breast block followed by the topic checks).  In the source the
otherworldly block matches on `a` inside an outer `q` test and falls
through on no match; that is rendered here by conjoining the `q` guard
onto each of its `a` cases. -/
def expandAbstractAnswerRest (answer a q : JStr) (isBreastContext : Bool) : JStr :=
  if isBreastContext then
    if a = "subtle".data then "subtle breast definition with gentle anatomical silhouette".data
    else if a = "moderate".data then "moderate breast definition with balanced curvature and natural proportions".data
    else if a = "pronounced".data then "pronounced breast curvature with clearly defined upper-torso silhouette".data
    else if a = "soft".data then "soft breast contours with smooth anatomical transitions".data
    else if a = "hard".data then "firm breast contours with sculpted anatomical form".data
    else if a = "minimal".data then "minimal breast projection with understated chest anatomy".data
    else if a = "extreme".data then "highly emphasized breast curvature with dramatic anatomical silhouette".data
    else if a = "strong".data then "strongly defined breast shape with enhanced anatomical contour".data
    else if a = "intense".data then "intensely emphasized upper-torso anatomy and curvature".data
    else if a = "round".data then "round breast shape with balanced fullness".data
    else if a = "teardrop".data then "teardrop breast shape with lower-fullness profile".data
    else if a = "full".data then "full, evenly distributed breast volume".data
    else if a = "shallow".data then "shallow breast projection with gentle slope".data
    else if a = "athletic".data then "athletic chest anatomy with minimal projection".data
    else if a = "wide-set".data ∨ a = "wide set".data ∨ a = "east-west".data ∨ a = "east_west".data then
      "wide-set breast placement with visible sternum spacing".data
    else if a = "close-set".data ∨ a = "close set".data ∨ a = "side-set".data ∨ a = "side_set".data then
      "close-set breast placement with narrow anatomical spacing".data
    else if a = "asymmetric".data ∨ a = "asymmetrical".data then
      "naturally asymmetrical breast proportions".data
    else if a = "augmented".data then "augmented breast shape with structured curvature".data
    else if a = "natural".data then "natural breast shape with organic anatomical silhouette".data
    else if a = "bell".data ∨ a = "bell shape".data then
      "bell-shaped breast profile with wider base and tapered top".data
    else if a = "slender".data then "slender breast profile with elongated anatomical form".data
    else if a = "relaxed".data then "relaxed breast tissue with natural downward contour".data
    else if a = "conical".data then "conical breast shape with pointed anatomical structure".data
    else answer
  else
    let otherw := jsIncludes q ("otherworld".data) || jsIncludes q ("supernatural".data) ||
      jsIncludes q ("non-human".data)
    if otherw && a = "subtle".data then "subtle otherworldly presence".data
    else if otherw && a = "moderate".data then "moderate degree of otherworldly traits".data
    else if otherw && a = "pronounced".data then "strongly pronounced supernatural features".data
    else if otherw && a = "extreme".data then "extremely vivid otherworldly appearance".data
    else if jsIncludes q ("intensity".data) || jsIncludes q ("strength".data) then
      a ++ " intensity level".data
    else if jsIncludes q ("mood".data) || jsIncludes q ("emotion".data) || jsIncludes q ("personality".data) then
      a ++ " emotional expression".data
    else if jsIncludes q ("style".data) || jsIncludes q ("art style".data) then
      a ++ " stylistic effect".data
    else if jsIncludes q ("camera".data) || jsIncludes q ("perspective".data) || jsIncludes q ("angle".data) then
      a ++ " camera perspective adjustment".data
    else if jsIncludes q ("light".data) || jsIncludes q ("illumination".data) then
      a ++ " lighting effect".data
    else if jsIncludes q ("hair".data) then a ++ " hair appearance".data
    else if jsIncludes q ("body".data) || jsIncludes q ("build".data) || jsIncludes q ("shape".data) then
      a ++ " physical trait".data
    else a ++ " visual effect".data

/-- `expandAbstractAnswer(answer, question)`. -/
def expandAbstractAnswer (answer question : JStr) : JStr :=
  let a := jsTrim (jsToLower answer)
  let q := jsToLower question
  let isBreastContext := breastContextB q
  if isBreastContext && decide (a ∈ BREAST_SHAPE_KEYWORDS) then
    expandAbstractAnswerRest answer a q isBreastContext
  else if !(decide (a ∈ ABSTRACT_ANSWERS)) && !(decide (a ∈ BREAST_SHAPE_KEYWORDS)) then
    answer
  else
    expandAbstractAnswerRest answer a q isBreastContext

/-! ### `NORMALIZATION_RULES` and `normalizeTemplate` -/

def ruleHair (t : JStr) : JStr :=
  if jsIncludes t ("wave".data) then "soft loose waves in the hair".data
  else if jsIncludes t ("curl".data) then "defined hair curls".data
  else if jsIncludes t ("volume".data) then "voluminous hairstyle".data
  else if jsIncludes t ("texture".data) then "hair texture detailing".data
  else "hairstyle with ".data ++ t

def ruleEyes (t : JStr) : JStr :=
  if !jsIncludes t ("eye".data) then "eye ".data ++ t else t

def ruleFace (t : JStr) : JStr :=
  if !jsIncludes t ("face".data) then "facial ".data ++ t else t

def ruleEnvironment (t : JStr) : JStr :=
  if jsIncludes t ("depth".data) then "environment depth layering".data
  else if !jsIncludes t ("environment".data) then "environment ".data ++ t
  else t

def ruleLighting (t : JStr) : JStr :=
  if !jsIncludes t ("light".data) then "lighting ".data ++ t else t

def ruleCamera (t : JStr) : JStr :=
  if !jsIncludes t ("camera".data) then "camera ".data ++ t else t

def ruleColor (t : JStr) : JStr :=
  if !jsIncludes t ("color".data) then "color style ".data ++ t else t

def ruleMaterials (t : JStr) : JStr := t ++ " material texture".data

def ruleClothing (t : JStr) : JStr :=
  if !jsIncludes t ("clothing".data) then "clothing ".data ++ t else t

def ruleFabric (t : JStr) : JStr :=
  if !jsIncludes t ("fabric".data) then "fabric ".data ++ t else t

def ruleArmor (t : JStr) : JStr :=
  if !jsIncludes t ("armor".data) then "armor ".data ++ t else t

def ruleMagic (t : JStr) : JStr :=
  if !jsIncludes t ("magic".data) then "magical ".data ++ t else t

def ruleExpression (t : JStr) : JStr :=
  if !jsIncludes t ("expression".data) then "expression ".data ++ t else t

def rulePose (t : JStr) : JStr :=
  if !jsIncludes t ("pose".data) then "pose ".data ++ t else t

/-- `NORMALIZATION_RULES`: the fixed table keyed by semantic tag. -/
def NORMALIZATION_RULES (tag : JStr) : Option (JStr → JStr) :=
  if tag = "hair".data then some ruleHair
  else if tag = "eyes".data then some ruleEyes
  else if tag = "face".data then some ruleFace
  else if tag = "environment".data then some ruleEnvironment
  else if tag = "lighting".data then some ruleLighting
  else if tag = "camera".data then some ruleCamera
  else if tag = "color".data then some ruleColor
  else if tag = "materials".data then some ruleMaterials
  else if tag = "clothing".data then some ruleClothing
  else if tag = "fabric".data then some ruleFabric
  else if tag = "armor".data then some ruleArmor
  else if tag = "magic".data then some ruleMagic
  else if tag = "expression".data then some ruleExpression
  else if tag = "pose".data then some rulePose
  else none

/-- One step of `normalizeTemplate`'s loop over the tags. -/
def applyRule (t : JStr) (tag : JStr) : JStr :=
  match NORMALIZATION_RULES tag with
  | some rule => rule t
  | none => t

/-- `normalizeTemplate(template, tags)`. -/
def normalizeTemplate (template : JStr) (tags : List JStr) : JStr :=
  tags.foldl applyRule (jsTrim (jsToLower template))

/-- Modelled from the spec: `sanitizeTemplate` lives in
`src/services/templateSanitizer.ts`, which is not included under `src/`
(the assembler imports it).  Per §6 of the spec its contract is: a pure
function of its input whose output contains no characters that would
break the `(text:value)` weight syntax.  It is modelled as stripping the
reserved characters of that syntax; the `tags` argument is accepted as
in the source signature. -/
def sanitizeTemplate (template : JStr) (tags : List JStr) : JStr :=
  let _ := tags
  template.filter (fun c => !(c = '(' || c = ')' || c = ':'))

/-! ### Data shapes of the assembler -/

inductive CEType where
  | prompt
  | negative
deriving DecidableEq

/-- Custom element `{text, enabled, type}`. -/
structure CustomElement where
  text : JStr
  enabled : Bool
  ctype : CEType
deriving DecidableEq

/-- `SelectedAnswer`. -/
structure SelectedAnswer where
  id : JStr
  nodeId : JStr
  answerId : JStr
  label : JStr
  questionText : Option JStr
deriving DecidableEq

/-- `SelectedRefinement`. -/
structure SelectedRefinement where
  id : JStr
  refinementId : JStr
  answerId : JStr
  label : JStr
  questionText : Option JStr
deriving DecidableEq

/-- `WeightValue`. -/
structure WeightValue where
  id : JStr
  attrId : JStr
  value : ℚ
  template : JStr
  tags : Option (List JStr)
  associatedAnswerId : Option JStr
  answerLabel : Option JStr
deriving DecidableEq

/-! ### `Number.prototype.toFixed(2)` -/

/-- Decimal digits of a natural number. -/
def natDigits (n : Nat) : JStr := Nat.toDigits 10 n

/-- Two-digit zero-padded rendering of `m < 100`. -/
def twoDigits (m : Nat) : JStr := if m < 10 then '0' :: natDigits m else natDigits m

/-- `x.toFixed(2)` for a non-negative value: round `100·x` to the nearest
integer, ties toward the larger integer, then print `int.dd`.  For
`x = num/den` (`den > 0`) that integer is
`⌊100·x + 1/2⌋ = ⌊(200·num + den) / (2·den)⌋`, computed here on the
numerator and denominator directly. -/
def toFixed2Nonneg (x : ℚ) : JStr :=
  let n : Nat := ((200 * x.num + (x.den : Int)).fdiv (2 * (x.den : Int))).toNat
  natDigits (n / 100) ++ ".".data ++ twoDigits (n % 100)

/-- `Number.prototype.toFixed(2)` (ECMA-262: negative values format their
magnitude and prepend the sign). -/
def toFixed2 (x : ℚ) : JStr :=
  if x < 0 then '-' :: toFixed2Nonneg (-x) else toFixed2Nonneg x

/-! ### The subject-extraction regular expressions

`assemblePrompt` matches the (lower-cased) question text against
`/what (?:are|is) (?:the )?(.+?) (?:like|like\?)$/` and, failing that,
`/what (?:are|is) (?:the )?(.+?)\?$/`, taking the first capture group.
Matching is embedded directly: scan start positions left to right; at a
position consume `what `, then `are ` or `is `, then optionally `the `
(greedy, with backtracking); the lazy nonempty capture followed by the
end-anchored suffix is then uniquely determined by the string's tail.
`.` does not match the line terminators `\n`/`\r`. -/

/-- Strip `pat` from the front of `s`, if present. -/
def stripPre (pat s : JStr) : Option JStr :=
  if pat <+: s then some (s.drop pat.length) else none

/-- A capture character (regex `.`): anything but a line terminator. -/
def dotOk (c : Char) : Bool := !(c = '\n' || c = '\r')

/-- Capture of `(.+?) (?:like|like\?)$` against the remainder `s`:
the end-anchored suffix is ` like?` when `s` ends with it (the `like`
alternative then fails at `$`), otherwise ` like`. -/
def capLike (s : JStr) : Option JStr :=
  if (" like?".data) <:+ s then
    let c := s.take (s.length - 6)
    if !c.isEmpty && c.all dotOk then some c else none
  else if (" like".data) <:+ s then
    let c := s.take (s.length - 5)
    if !c.isEmpty && c.all dotOk then some c else none
  else none

/-- Capture of `(.+?)\?$` against the remainder `s`. -/
def capQ (s : JStr) : Option JStr :=
  if ("?".data) <:+ s then
    let c := s.take (s.length - 1)
    if !c.isEmpty && c.all dotOk then some c else none
  else none

/-- Match `what (?:are|is) (?:the )?` at the start of `s`, then the
capture via `cap`; the greedy optional `the ` backtracks. -/
def matchCoreWith (cap : JStr → Option JStr) (s : JStr) : Option JStr :=
  match stripPre ("what ".data) s with
  | none => none
  | some s1 =>
    let s2? := match stripPre ("are ".data) s1 with
      | some x => some x
      | none => stripPre ("is ".data) s1
    match s2? with
    | none => none
    | some s2 =>
      match stripPre ("the ".data) s2 with
      | some s3 =>
        match cap s3 with
        | some c => some c
        | none => cap s2
      | none => cap s2

/-- Scan start positions left to right (JS `String.match` finds the
leftmost match). -/
def scanMatch (cap : JStr → Option JStr) : JStr → Option JStr
  | [] => none
  | c :: t =>
    match matchCoreWith cap (c :: t) with
    | some r => some r
    | none => scanMatch cap t

/-- The subject extracted from the (already lower-cased) question text:
first regex, then the fallback regex without `like`. -/
def subjectMatch (question : JStr) : Option JStr :=
  match scanMatch capLike question with
  | some c => some c
  | none => scanMatch capQ question

/-! ### `assemblePrompt` -/

/-- The label pushed for one committed answer (the `answers.forEach`
body: expansion, the `character-build` suffix, subject extraction). -/
def answerPart (a : SelectedAnswer) : JStr :=
  let label :=
    if truthyS a.questionText then
      expandAbstractAnswer a.label (a.questionText.getD [])
    else a.label
  if a.nodeId = "character-build".data then
    jsToLower label ++ " body type".data
  else if truthyS a.questionText &&
      !(decide (jsTrim (jsToLower a.label) ∈ ABSTRACT_ANSWERS)) then
    let question := jsToLower (a.questionText.getD [])
    match subjectMatch question with
    | some m1 => jsToLower label ++ " ".data ++ jsTrim m1
    | none => label
  else label

/-- The label pushed for one committed refinement. -/
def refinementPart (r : SelectedRefinement) : JStr :=
  if truthyS r.questionText then
    expandAbstractAnswer r.label (r.questionText.getD [])
  else r.label

/-- A `(text:value)` fragment. -/
def renderFrag (p : JStr × ℚ) : JStr :=
  "(".data ++ p.1 ++ ":".data ++ toFixed2 p.2 ++ ")".data

/-- Root-bound test for an intensity weight: some committed answer has
this weight's `associatedAnswerId` as its id and originates at `root`. -/
def isRootAnswerB (answers : List SelectedAnswer) (w : WeightValue) : Bool :=
  answers.any (fun a => w.associatedAnswerId == some a.id && a.nodeId == "root".data)

/-- The sanitized template of a non-intensity weight: prefix the template
with the lower-cased answer label unless already contained
(case-insensitively), then normalize and sanitize. -/
def weightSafeTemplate (w : WeightValue) : JStr :=
  let template :=
    if truthyS w.answerLabel then
      let answerLower := jsToLower (w.answerLabel.getD [])
      let templateLower := jsToLower w.template
      if !jsIncludes templateLower answerLower then
        answerLower ++ " ".data ++ w.template
      else w.template
    else w.template
  sanitizeTemplate (normalizeTemplate template (w.tags.getD [])) (w.tags.getD [])

/-- One iteration of the `weights.forEach` body over the running
`(seen, parts)` state. -/
def weightStep (answers : List SelectedAnswer) (acc : List JStr × List JStr)
    (w : WeightValue) : List JStr × List JStr :=
  let (seen, parts) := acc
  if w.attrId = "intensity".data ∧ truthyS w.answerLabel then
    if isRootAnswerB answers w then (seen, parts)
    else
      let safeLabel := sanitizeTemplate (jsToLower (w.answerLabel.getD [])) (w.tags.getD [])
      if safeLabel ∈ seen then (seen, parts)
      else (seen ++ [safeLabel], parts ++ [renderFrag (safeLabel, w.value)])
  else if w.attrId = "intensity".data ∧ ¬truthyS w.answerLabel then (seen, parts)
  else
    let safeTemplate := weightSafeTemplate w
    if safeTemplate ∈ seen then (seen, parts)
    else (seen ++ [safeTemplate], parts ++ [renderFrag (safeTemplate, w.value)])

/-- The `(seen, parts)` state after the whole `weights.forEach`. -/
def weightsFold (answers : List SelectedAnswer) (weights : List WeightValue) :
    List JStr × List JStr :=
  weights.foldl (weightStep answers) ([], [])

/-- The prompt parts contributed by the weights loop. -/
def weightPartsOf (answers : List SelectedAnswer) (weights : List WeightValue) : List JStr :=
  (weightsFold answers weights).2

/-- The fixed base negative-prompt list. -/
def baseNegativeParts : List JStr :=
  ["deformed".data, "distorted".data, "extra limbs".data,
   "low detail".data, "low quality".data, "bad anatomy".data]

/-- `assemblePrompt(answers, refinements, weights, customElements)`. -/
def assemblePrompt (answers : List SelectedAnswer)
    (refinements : List SelectedRefinement) (weights : List WeightValue)
    (customElements : List CustomElement) : JStr × JStr :=
  let parts := answers.map answerPart ++ refinements.map refinementPart ++
    weightPartsOf answers weights
  let enabledEls := customElements.filter (fun e => e.enabled)
  let customPromptElements :=
    (enabledEls.filter (fun e => e.ctype = CEType.prompt)).map (fun e => e.text)
  let customNegativeElements :=
    (enabledEls.filter (fun e => ¬(e.ctype = CEType.prompt))).map (fun e => e.text)
  let prompt := joinComma (parts ++ customPromptElements)
  let negativePrompt := joinComma (baseNegativeParts ++ customNegativeElements)
  (prompt, negativePrompt)

/-! ### `useInterviewEngine.ts`: data model

JS `Map` preserves insertion order and `set` updates an existing key in
place; `Set` likewise.  They are modelled as association lists with the
corresponding operations. -/

/-- JS `Map.get`. -/
def amGet {α : Type} (m : List (JStr × α)) (k : JStr) : Option α :=
  (m.find? (fun p => p.1 == k)).map (fun p => p.2)

/-- JS `Map.has`. -/
def amHas {α : Type} (m : List (JStr × α)) (k : JStr) : Bool :=
  m.any (fun p => p.1 == k)

/-- JS `Map.set`: update in place if present, else append. -/
def amSet {α : Type} (m : List (JStr × α)) (k : JStr) (v : α) : List (JStr × α) :=
  if m.any (fun p => p.1 == k) then
    m.map (fun p => if p.1 == k then (k, v) else p)
  else m ++ [(k, v)]

/-- JS `Map.delete`. -/
def amDelete {α : Type} (m : List (JStr × α)) (k : JStr) : List (JStr × α) :=
  m.filter (fun p => !(p.1 == k))

/-- JS `Set.add`. -/
def setAdd (l : List JStr) (x : JStr) : List JStr :=
  if l.any (fun y => y == x) then l else l ++ [x]

/-- JS `Set.delete`. -/
def setDelete (l : List JStr) (x : JStr) : List JStr :=
  l.filter (fun y => !(y == x))

/-- JS `Set.has`. -/
def setHas (l : List JStr) (x : JStr) : Bool := l.any (fun y => y == x)

/-- An answer option `{id, label, next?}` of a node. -/
structure AnswerOption where
  id : JStr
  label : JStr
  next : Option JStr
deriving DecidableEq

/-- A weight definition `{id, label, template, min, max, step, default, tags?}`. -/
structure WeightAttr where
  id : JStr
  label : JStr
  template : JStr
  min : ℚ
  max : ℚ
  step : ℚ
  default : ℚ
  tags : Option (List JStr)
deriving DecidableEq

/-- A nested refinement node (same shape as a node, minus further nesting). -/
structure RefinementNode where
  id : JStr
  question : JStr
  answers : Option (List AnswerOption)
  weights : Option (List WeightAttr)
deriving DecidableEq

/-- An interview node; `InterviewNode | RefinementNode` entries of the
node map share this shape (all question-body fields optional). -/
structure InterviewNode where
  id : JStr
  question : JStr
  answers : Option (List AnswerOption)
  weights : Option (List WeightAttr)
  refinements : Option (List RefinementNode)
deriving DecidableEq

/-- The immutable node lookup table (`nodeMap`), a parameter of every
engine operation (the hook reads it from a module-level map built from
the static JSON data, which is not part of the core). -/
abbrev NodeMap := List (JStr × InterviewNode)

/-- The state owned by `useInterviewEngine`. -/
structure EngineState where
  currentNodeId : JStr
  history : List JStr
  tempAnswers : List (JStr × SelectedAnswer)
  tempRefinements : List (JStr × SelectedRefinement)
  committedAnswers : List SelectedAnswer
  committedRefinements : List SelectedRefinement
  weightValues : List (JStr × WeightValue)
  tempIntensities : List (JStr × ℚ)
  touchedWeights : List JStr
  enabledSliders : List (JStr × Bool)
  customElements : List CustomElement
deriving DecidableEq

/-- The session-start state (`currentNodeId = "root"`, `history = ["root"]`,
everything else empty). -/
def initState : EngineState where
  currentNodeId := "root".data
  history := ["root".data]
  tempAnswers := []
  tempRefinements := []
  committedAnswers := []
  committedRefinements := []
  weightValues := []
  tempIntensities := []
  touchedWeights := []
  enabledSliders := []
  customElements := []

/-! ### Engine operations -/

/-- `selectTempAnswer(answerId)`. -/
def selectTempAnswer (g : NodeMap) (s : EngineState) (answerId : JStr) : EngineState :=
  match amGet g s.currentNodeId with
  | none => s
  | some currentNode =>
    match currentNode.answers with
    | none => s
    | some answers =>
      match answers.find? (fun a => a.id == answerId) with
      | none => s
      | some answer =>
        let sel : SelectedAnswer :=
          { id := "temp-".data ++ s.currentNodeId ++ "-".data ++ answerId
            nodeId := s.currentNodeId
            answerId := answer.id
            label := answer.label
            questionText := some currentNode.question }
        { s with tempAnswers := amSet s.tempAnswers s.currentNodeId sel }

/-- `selectTempRefinement(answerId)` (the source looks the option up in
`currentNode.answers`, and initializes the temp intensity to `1.0` if
unset). -/
def selectTempRefinement (g : NodeMap) (s : EngineState) (answerId : JStr) : EngineState :=
  match amGet g s.currentNodeId with
  | none => s
  | some currentNode =>
    match currentNode.answers with
    | none => s
    | some answers =>
      match answers.find? (fun a => a.id == answerId) with
      | none => s
      | some answer =>
        let sel : SelectedRefinement :=
          { id := "temp-".data ++ s.currentNodeId ++ "-".data ++ answerId
            refinementId := s.currentNodeId
            answerId := answer.id
            label := answer.label
            questionText := some currentNode.question }
        let s' := { s with tempRefinements := amSet s.tempRefinements s.currentNodeId sel }
        if amHas s'.tempIntensities s'.currentNodeId then s'
        else { s' with tempIntensities := amSet s'.tempIntensities s'.currentNodeId 1 }

/-- Clear the temp answer/refinement/intensity slots of node `nid`
(the common "clear temp selections" block of the navigation operations). -/
def clearTemps (s : EngineState) (nid : JStr) : EngineState :=
  { s with tempAnswers := amDelete s.tempAnswers nid
           tempRefinements := amDelete s.tempRefinements nid
           tempIntensities := amDelete s.tempIntensities nid }

/-- `goToNext()`. -/
def goToNext (g : NodeMap) (s : EngineState) : EngineState :=
  match amGet g s.currentNodeId with
  | none => s
  | some currentNode =>
    let hasNoAnswers := currentNode.answers.getD [] |>.isEmpty
    if hasNoAnswers && jsStartsWith s.currentNodeId ("nsfw-".data) &&
        !(s.currentNodeId == "nsfw-options".data) &&
        amHas g ("nsfw-options".data) then
      clearTemps { s with history := s.history ++ ["nsfw-options".data]
                          currentNodeId := "nsfw-options".data } s.currentNodeId
    else if hasNoAnswers then s
    else
      let navAnswerSource : Option (JStr × JStr) :=
        match s.committedAnswers.find? (fun a => a.nodeId == s.currentNodeId) with
        | some a => some (a.answerId, a.id)
        | none =>
          match amGet s.tempAnswers s.currentNodeId with
          | some t => some (t.answerId, t.id)
          | none => none
      match navAnswerSource with
      | none => s
      | some (ansId, _) =>
        match (currentNode.answers.getD []).find? (fun a => a.id == ansId) with
        | none => s
        | some answer =>
          -- `if (!answer || !answer.next) return;` — an empty `next` is falsy
          if truthyS answer.next then
            let nextId := answer.next.getD []
            clearTemps { s with history := s.history ++ [nextId]
                                currentNodeId := nextId } s.currentNodeId
          else s

/-- `skipToNext()`. -/
def skipToNext (g : NodeMap) (s : EngineState) : EngineState :=
  match amGet g s.currentNodeId with
  | none => s
  | some currentNode =>
    if (currentNode.answers.getD [] |>.isEmpty) &&
        jsStartsWith s.currentNodeId ("nsfw-".data) &&
        !(s.currentNodeId == "nsfw-options".data) then
      clearTemps { s with history := s.history ++ ["nsfw-options".data]
                          currentNodeId := "nsfw-options".data } s.currentNodeId
    else
      match currentNode.answers.getD [] with
      | firstAnswer :: _ =>
        -- `if (firstAnswer.next)` — an empty `next` is falsy
        (if truthyS firstAnswer.next then
           let nextId := firstAnswer.next.getD []
           clearTemps { s with history := s.history ++ [nextId]
                               currentNodeId := nextId } s.currentNodeId
         else skipToRefinement currentNode s)
      | [] => skipToRefinement currentNode s
where
  /-- The trailing "skip to the first refinement" block. -/
  skipToRefinement (currentNode : InterviewNode) (s : EngineState) : EngineState :=
    match currentNode.refinements.getD [] with
    | firstRefinement :: _ =>
      if firstRefinement.id.isEmpty then s
      else
        clearTemps { s with history := s.history ++ [firstRefinement.id]
                            currentNodeId := firstRefinement.id } s.currentNodeId
    | [] => s

/-- `previous()`. -/
def previous (s : EngineState) : EngineState :=
  if s.history.length ≤ 1 then s
  else
    let newHistory := s.history.dropLast
    -- `newHistory` is nonempty here, so `getLast?` never falls back
    let prevNodeId := newHistory.getLast?.getD s.currentNodeId
    clearTemps { s with history := newHistory, currentNodeId := prevNodeId }
      s.currentNodeId

/-- `jumpTo(nodeId)`. -/
def jumpTo (g : NodeMap) (s : EngineState) (nodeId : JStr) : EngineState :=
  if !amHas g nodeId then s
  else
    let s' := clearTemps s s.currentNodeId
    let s'' := { s' with currentNodeId := nodeId }
    if !s''.history.any (fun h => h == nodeId) then
      { s'' with history := s''.history ++ [nodeId] }
    else s''

/-- `jumpToCategory(nodeId)`: navigate without clearing temp selections. -/
def jumpToCategory (g : NodeMap) (s : EngineState) (nodeId : JStr) : EngineState :=
  if !amHas g nodeId then s
  else
    let s' := { s with currentNodeId := nodeId }
    if !s'.history.any (fun h => h == nodeId) then
      { s' with history := s'.history ++ [nodeId] }
    else s'

/-- `setIntensity(nodeId, value)`. -/
def setIntensity (s : EngineState) (nodeId : JStr) (value : ℚ) : EngineState :=
  { s with tempIntensities := amSet s.tempIntensities nodeId value }

/-- `setSliderEnabled(attrId, enabled)`. -/
def setSliderEnabled (s : EngineState) (attrId : JStr) (enabled : Bool) : EngineState :=
  { s with enabledSliders := amSet s.enabledSliders attrId enabled }

/-- `setWeight(attrId, value, template, tags?)`. -/
def setWeight (s : EngineState) (attrId : JStr) (value : ℚ) (template : JStr)
    (tags : Option (List JStr)) : EngineState :=
  let existing := s.weightValues.find?
    (fun p => p.2.attrId == attrId && !truthyS p.2.associatedAnswerId)
  let weights :=
    match existing with
    | some p => amSet s.weightValues p.1 { p.2 with value := value, template := template, tags := tags }
    | none => amSet s.weightValues attrId
        { id := "temp-".data ++ attrId, attrId := attrId, value := value,
          template := template, tags := tags,
          associatedAnswerId := none, answerLabel := none }
  { s with weightValues := weights, touchedWeights := setAdd s.touchedWeights attrId }

/-- `addCustomElement(element)`. -/
def addCustomElement (s : EngineState) (element : JStr) : EngineState :=
  { s with customElements := s.customElements ++ [{ text := element, enabled := false, ctype := CEType.prompt }] }

/-- `setCustomElementType(index, type)`. -/
def setCustomElementType (s : EngineState) (index : Nat) (t : CEType) : EngineState :=
  { s with customElements :=
    (s.customElements.enum.map (fun p => if p.1 = index then { p.2 with ctype := t } else p.2)) }

/-- `removeCustomElement(index)`. -/
def removeCustomElement (s : EngineState) (index : Nat) : EngineState :=
  { s with customElements := (s.customElements.enum.filter (fun p => p.1 ≠ index)).map (fun p => p.2) }

/-- `toggleCustomElement(index)`. -/
def toggleCustomElement (s : EngineState) (index : Nat) : EngineState :=
  { s with customElements :=
    (s.customElements.enum.map (fun p => if p.1 = index then { p.2 with enabled := !p.2.enabled } else p.2)) }

/-- `reset()`: every slot back to its session-start value. -/
def resetEngine (s : EngineState) : EngineState :=
  let _ := s
  initState

/-- `removeSelection(selectionId)`: drop the committed answer and
refinement with that id, and every weight bound to it. -/
def removeSelection (s : EngineState) (selectionId : JStr) : EngineState :=
  { s with
    committedAnswers := s.committedAnswers.filter (fun a => !(a.id == selectionId))
    committedRefinements := s.committedRefinements.filter (fun r => !(r.id == selectionId))
    weightValues := s.weightValues.filter (fun p => !(p.2.associatedAnswerId == some selectionId)) }

/-- The weights passed to the assembler by `getPreviewPrompt`: keep a
weight when its `associatedAnswerId` is falsy or is the id of a
currently committed answer. -/
def previewWeights (s : EngineState) : List WeightValue :=
  (s.weightValues.map (fun p => p.2)).filter (fun w =>
    !truthyS w.associatedAnswerId ||
      s.committedAnswers.any (fun a => a.id == w.associatedAnswerId.getD []))

/-- `getPreviewPrompt()`. -/
def getPreviewPrompt (s : EngineState) : JStr × JStr :=
  assemblePrompt s.committedAnswers s.committedRefinements (previewWeights s) s.customElements

/-! ### `commitCurrentSelections`

The fresh identifiers built from `Date.now()`/`Math.random()` are the
parameters `fresh1` (answer), `fresh2` (refinement) and `salt`
(standalone weights).  All reads inside the call see the state captured
at its start (`s`); the functional `setWeightValues` updates are
threaded sequentially. -/

/-- The backward history walk: the most recent committed answer (or,
failing that, refinement) at the node ids in `nodes` (already ordered
from most recent to oldest), returned as `(selection id, label)`. -/
def contextualFind (ca : List SelectedAnswer) (cr : List SelectedRefinement) :
    List JStr → Option (JStr × JStr)
  | [] => none
  | prevNodeId :: rest =>
    match ca.find? (fun a => a.nodeId == prevNodeId) with
    | some a => some (a.id, a.label)
    | none =>
      match cr.find? (fun r => r.refinementId == prevNodeId) with
      | some r => some (r.id, r.label)
      | none => contextualFind ca cr rest

/-- One iteration of the `allWeights.forEach` commit loop (reads from the
captured state `s`, threads the evolving weight map `w`). -/
def commitWeightStep (s : EngineState) (finalAnswerId finalAnswerLabel : Option JStr)
    (salt : JStr) (w : List (JStr × WeightValue)) (weightAttr : WeightAttr) :
    List (JStr × WeightValue) :=
  let isEnabled := amGet s.enabledSliders weightAttr.id == some true
  if !isEnabled then w
  else
    let shouldCommit := setHas s.touchedWeights weightAttr.id || truthyS finalAnswerId
    if !shouldCommit then w
    else
      let currentWeight : Option WeightValue :=
        match amGet s.weightValues weightAttr.id with
        | some cw => some cw
        | none =>
          (s.weightValues.find? (fun p =>
            p.2.attrId == weightAttr.id && !truthyS p.2.associatedAnswerId)).map
            (fun p => p.2)
      if truthyS finalAnswerId && truthyS finalAnswerLabel then
        let weightId := "weight-".data ++ finalAnswerId.getD [] ++ "-".data ++ weightAttr.id
        let weightValue := match currentWeight with
          | some cw => cw.value
          | none => weightAttr.default
        let weightTags := match currentWeight with
          | some cw => cw.tags
          | none => weightAttr.tags
        amSet w weightId
          { id := weightId, attrId := weightAttr.id, value := weightValue,
            template := weightAttr.template, tags := weightTags,
            associatedAnswerId := finalAnswerId, answerLabel := finalAnswerLabel }
      else
        let standaloneWeightId := "weight-standalone-".data ++ salt ++ "-".data ++ weightAttr.id
        let weightValue := match currentWeight with
          | some cw => cw.value
          | none => weightAttr.default
        let weightTags := match currentWeight with
          | some cw => cw.tags
          | none => weightAttr.tags
        amSet w standaloneWeightId
          { id := standaloneWeightId, attrId := weightAttr.id, value := weightValue,
            template := weightAttr.template, tags := weightTags,
            associatedAnswerId := none, answerLabel := none }

/-- `commitCurrentSelections()`. -/
def commitCurrentSelections (g : NodeMap) (s : EngineState)
    (fresh1 fresh2 salt : JStr) : EngineState :=
  let tempAnswer := amGet s.tempAnswers s.currentNodeId
  let tempRefinement := amGet s.tempRefinements s.currentNodeId
  let committedAnswerId : Option JStr :=
    match tempAnswer with
    | some _ => some fresh1
    | none => none
  let answerLabel1 : Option JStr :=
    match tempAnswer with
    | some ta => some ta.label
    | none => none
  let committedAnswers1 :=
    match tempAnswer with
    | some ta => s.committedAnswers ++ [{ ta with id := fresh1 }]
    | none => s.committedAnswers
  let committedRefinements1 :=
    match tempRefinement with
    | some tr => s.committedRefinements ++ [{ tr with id := fresh2 }]
    | none => s.committedRefinements
  let answerLabel : Option JStr :=
    match tempRefinement with
    | some tr => if !truthyS answerLabel1 then some tr.label else answerLabel1
    | none => answerLabel1
  -- intensity weight (skipped for the root question and disabled slider)
  let weights1 :=
    if !(s.currentNodeId == "root".data) &&
        (amGet s.enabledSliders ("intensity".data) == some true) then
      let intensity := (amGet s.tempIntensities s.currentNodeId).getD 1
      if truthyS committedAnswerId && truthyS answerLabel then
        let intensityWeightId := "weight-".data ++ fresh1 ++ "-intensity".data
        amSet s.weightValues intensityWeightId
          { id := intensityWeightId, attrId := "intensity".data,
            value := intensity, template := "intensity".data, tags := none,
            associatedAnswerId := committedAnswerId, answerLabel := answerLabel }
      else s.weightValues
    else s.weightValues
  -- node-scoped weights
  let currentNode := amGet g s.currentNodeId
  let weights2 :=
    match currentNode with
    | none => weights1
    | some node =>
      let nodeWeights := node.weights.getD []
      let refinementWeights :=
        ((node.refinements.getD []).flatMap (fun r => r.weights.getD [])) ++
        (if jsStartsWith s.currentNodeId ("refine-".data) then
          match amGet g s.currentNodeId with
          | some refinementNode => refinementNode.weights.getD []
          | none => []
        else [])
      let allWeights := nodeWeights ++ refinementWeights
      let contextual : Option (JStr × JStr) :=
        if !truthyS committedAnswerId && decide (1 < s.history.length) then
          contextualFind s.committedAnswers s.committedRefinements
            s.history.dropLast.reverse
        else none
      let finalAnswerId : Option JStr :=
        if truthyS committedAnswerId then committedAnswerId
        else contextual.map (fun p => p.1)
      let finalAnswerLabel : Option JStr :=
        if truthyS answerLabel then answerLabel
        else contextual.map (fun p => p.2)
      allWeights.foldl (commitWeightStep s finalAnswerId finalAnswerLabel salt) weights1
  let touched1 :=
    match currentNode with
    | none => s.touchedWeights
    | some node => (node.weights.getD []).foldl (fun acc w => setDelete acc w.id) s.touchedWeights
  { s with
    committedAnswers := committedAnswers1
    committedRefinements := committedRefinements1
    weightValues := weights2
    tempAnswers := amDelete s.tempAnswers s.currentNodeId
    tempRefinements := amDelete s.tempRefinements s.currentNodeId
    tempIntensities := amDelete s.tempIntensities s.currentNodeId
    touchedWeights := touched1 }

/-! ## Claim C2: the non-anatomical early return of `expandAbstractAnswer` -/

/-- C2 counterexample: outside anatomical context the non-adjective label
`"round"` (a breast-shape keyword) is *not* returned unchanged — with an
empty question text (which matches no anatomical heuristic) it becomes
`"round visual effect"`. -/
theorem C2_counterexample :
    breastContextB (jsToLower []) = false ∧
    jsTrim (jsToLower ("round".data)) ∉ ABSTRACT_ANSWERS ∧
    expandAbstractAnswer ("round".data) [] = "round visual effect".data ∧
    expandAbstractAnswer ("round".data) [] ≠ "round".data := by
  refine ⟨by decide, by decide, by decide, by decide⟩

/-- C2 (amended): outside anatomical context, `expandAbstractAnswer`
returns the label unchanged when its lower-cased, trimmed form is in
neither the intensity-adjective catalogue *nor* the breast-shape keyword
catalogue (a raw label in the breast-shape catalogue, such as `"round"`,
falls through to the topic-keyword expansion instead). -/
theorem C2_nonAnatomical_unchanged (answer question : JStr)
    (hctx : breastContextB (jsToLower question) = false)
    (habs : jsTrim (jsToLower answer) ∉ ABSTRACT_ANSWERS)
    (hshape : jsTrim (jsToLower answer) ∉ BREAST_SHAPE_KEYWORDS) :
    expandAbstractAnswer answer question = answer := by
  have h1 : decide (jsTrim (jsToLower answer) ∈ ABSTRACT_ANSWERS) = false :=
    decide_eq_false habs
  have h2 : decide (jsTrim (jsToLower answer) ∈ BREAST_SHAPE_KEYWORDS) = false :=
    decide_eq_false hshape
  simp only [expandAbstractAnswer, hctx, h1, h2, Bool.false_and, Bool.not_false,
    Bool.and_self, if_false, if_true, Bool.false_eq_true]

/-- C2 witness. -/
theorem C2_witness : expandAbstractAnswer ("zigzag".data) ("hello".data) = "zigzag".data :=
  C2_nonAnatomical_unchanged ("zigzag".data) ("hello".data) (by decide) (by decide) (by decide)

/-! ## Claim C6: cascade deletion in `removeSelection` -/

/-- C6: after `removeSelection id` no committed answer or refinement has
that id and no weight is bound to it (cascade), and if nothing matched
the whole state is unchanged. -/
theorem C6_removeSelection_cascade (s : EngineState) (selectionId : JStr) :
    (∀ a ∈ (removeSelection s selectionId).committedAnswers, a.id ≠ selectionId) ∧
    (∀ r ∈ (removeSelection s selectionId).committedRefinements, r.id ≠ selectionId) ∧
    (∀ p ∈ (removeSelection s selectionId).weightValues,
      p.2.associatedAnswerId ≠ some selectionId) ∧
    ((∀ a ∈ s.committedAnswers, a.id ≠ selectionId) →
     (∀ r ∈ s.committedRefinements, r.id ≠ selectionId) →
     (∀ p ∈ s.weightValues, p.2.associatedAnswerId ≠ some selectionId) →
     removeSelection s selectionId = s) := by
  refine ⟨?_, ?_, ?_, ?_⟩
  · intro a ha
    have := List.of_mem_filter ha
    simpa using this
  · intro r hr
    have := List.of_mem_filter hr
    simpa using this
  · intro p hp
    have := List.of_mem_filter hp
    simpa using this
  · intro h1 h2 h3
    have e1 : s.committedAnswers.filter (fun a => !(a.id == selectionId)) = s.committedAnswers := by
      rw [List.filter_eq_self]
      intro a ha
      simpa using h1 a ha
    have e2 : s.committedRefinements.filter (fun r => !(r.id == selectionId)) = s.committedRefinements := by
      rw [List.filter_eq_self]
      intro r hr
      simpa using h2 r hr
    have e3 : s.weightValues.filter (fun p => !(p.2.associatedAnswerId == some selectionId)) = s.weightValues := by
      rw [List.filter_eq_self]
      intro p hp
      simpa using h3 p hp
    simp [removeSelection, e1, e2, e3]

/-- A concrete state with one committed answer and one weight bound to it
(used by the C6 witness). -/
def exampleStateC6 : EngineState :=
  { initState with
      committedAnswers := [exAnswer]
      weightValues := [("w1".data, exWeight)] }
where
  exAnswer : SelectedAnswer :=
    { id := "sel-1".data, nodeId := "n".data, answerId := "a".data,
      label := "L".data, questionText := none }
  exWeight : WeightValue :=
    { id := "w1".data, attrId := "glow".data, value := 1, template := "glow".data,
      tags := none, associatedAnswerId := some ("sel-1".data),
      answerLabel := some ("L".data) }

/-- C6 witness: the cascade conclusion instantiated at a concrete state
holding a committed answer and a weight bound to it. -/
theorem C6_witness :
    (∀ a ∈ (removeSelection exampleStateC6 ("sel-1".data)).committedAnswers,
      a.id ≠ "sel-1".data) ∧
    (∀ p ∈ (removeSelection exampleStateC6 ("sel-1".data)).weightValues,
      p.2.associatedAnswerId ≠ some ("sel-1".data)) :=
  ⟨(C6_removeSelection_cascade exampleStateC6 ("sel-1".data)).1,
   (C6_removeSelection_cascade exampleStateC6 ("sel-1".data)).2.2.1⟩

/-! ## Claim C7: `jumpToCategory` -/

/-- C7 counterexample: the category jump does *not* bypass the
missing-node guard — on a target absent from the node map it is a no-op
(the pointer does not move), exactly like the plain jump. -/
theorem C7_counterexample :
    amHas ([] : NodeMap) ("missing".data) = false ∧
    jumpToCategory ([] : NodeMap) initState ("missing".data) = initState ∧
    (jumpToCategory ([] : NodeMap) initState ("missing".data)).currentNodeId ≠ "missing".data := by
  refine ⟨by decide, by decide, by decide⟩

/-- C7 (amended): `jumpToCategory` keeps the same no-op-if-missing guard
as the plain jump (it is the identity when the target is not in the node
map); when the target exists it moves the current pointer to it; and in
all cases it never clears temporary state — the temp answer, refinement
and intensity slots are unchanged. -/
theorem C7_categoryJump (g : NodeMap) (s : EngineState) (nodeId : JStr) :
    (amHas g nodeId = false → jumpToCategory g s nodeId = s) ∧
    (amHas g nodeId = true → (jumpToCategory g s nodeId).currentNodeId = nodeId) ∧
    (jumpToCategory g s nodeId).tempAnswers = s.tempAnswers ∧
    (jumpToCategory g s nodeId).tempRefinements = s.tempRefinements ∧
    (jumpToCategory g s nodeId).tempIntensities = s.tempIntensities := by
  refine ⟨?_, ?_, ?_, ?_, ?_⟩
  · intro h
    simp [jumpToCategory, h]
  · intro h
    simp only [jumpToCategory, h, Bool.not_true, Bool.false_eq_true, if_false]
    split <;> rfl
  all_goals
    · by_cases h : amHas g nodeId
      · simp only [jumpToCategory, h, Bool.not_true, Bool.false_eq_true, if_false]
        split <;> rfl
      · simp [jumpToCategory, h]

/-- A one-node map (used by the C7 witness). -/
def exampleMapC7 : NodeMap :=
  [("a".data,
    { id := "a".data, question := "Q".data, answers := none, weights := none,
      refinements := none })]

/-- C7 witness. -/
theorem C7_witness :
    (amHas exampleMapC7 ("a".data) = true →
      (jumpToCategory exampleMapC7 initState ("a".data)).currentNodeId = "a".data) ∧
    (jumpToCategory exampleMapC7 initState ("a".data)).tempAnswers = initState.tempAnswers :=
  ⟨(C7_categoryJump exampleMapC7 initState ("a".data)).2.1,
   (C7_categoryJump exampleMapC7 initState ("a".data)).2.2.1⟩

/-! ## Claim C9: the preview weight filter -/

/-- C9: `getPreviewPrompt` passes to the assembler only the weights whose
`associatedAnswerId` is falsy or the id of a currently committed answer;
a weight bound to a committed refinement id (never an answer id) is
filtered out of the previewed assembly. -/
theorem C9_previewFilter (s : EngineState) (w : WeightValue) (rid : JStr)
    (_hw : w ∈ s.weightValues.map (fun p => p.2))
    (hassoc : w.associatedAnswerId = some rid)
    (hrne : rid ≠ [])
    (_hr : ∃ r ∈ s.committedRefinements, r.id = rid)
    (hna : ∀ a ∈ s.committedAnswers, a.id ≠ rid) :
    w ∉ previewWeights s ∧
    getPreviewPrompt s =
      assemblePrompt s.committedAnswers s.committedRefinements (previewWeights s)
        s.customElements := by
  refine ⟨?_, rfl⟩
  intro hmem
  have hp := List.of_mem_filter hmem
  rw [hassoc] at hp
  have hne : truthyS (some rid) = true := by
    simp [truthyS, List.isEmpty_iff, hrne]
  rw [hne] at hp
  simp only [Bool.not_true, Bool.false_or, List.any_eq_true] at hp
  obtain ⟨a, ha, hid⟩ := hp
  exact hna a ha (by simpa [hassoc] using hid)

/-- The committed refinement used by the C9 witness. -/
def exampleRefinementC9 : SelectedRefinement :=
  { id := "r1".data, refinementId := "ref".data, answerId := "a".data,
    label := "L".data, questionText := none }

/-- The bound weight used by the C9 witness. -/
def exampleWeightC9 : WeightValue :=
  { id := "w1".data, attrId := "glow".data, value := 1, template := "glow".data,
    tags := none, associatedAnswerId := some ("r1".data),
    answerLabel := some ("L".data) }

/-- A state whose only weight is bound to a committed refinement
(used by the C9 witness). -/
def exampleStateC9 : EngineState :=
  { initState with
      committedRefinements := [exampleRefinementC9]
      weightValues := [("w1".data, exampleWeightC9)] }

/-- C9 witness: a weight bound to the committed refinement `"r1"` is not
among the weights the preview passes to the assembler. -/
theorem C9_witness : exampleWeightC9 ∉ previewWeights exampleStateC9 :=
  (C9_previewFilter exampleStateC9 exampleWeightC9 ("r1".data) (by decide) rfl
    (by decide) ⟨exampleRefinementC9, by decide, rfl⟩ (by decide)).1

/-! ## Claim C3: the root `"Male"` scenario -/

/-- `expandAbstractAnswer` leaves `"Male"` unchanged for every question
text: its lower-cased trimmed form `"male"` is in neither catalogue. -/
theorem expand_male (q : JStr) : expandAbstractAnswer ("Male".data) q = "Male".data := by
  have h1 : decide (jsTrim (jsToLower ("Male".data)) ∈ ABSTRACT_ANSWERS) = false := by decide
  have h2 : decide (jsTrim (jsToLower ("Male".data)) ∈ BREAST_SHAPE_KEYWORDS) = false := by decide
  simp only [expandAbstractAnswer, h1, h2, Bool.and_false, Bool.not_false, Bool.and_self,
    Bool.false_eq_true, if_false, if_true]

/-- A committed `"Male"` answer at the root node. -/
def maleAnswer (i aid : JStr) (qt : Option JStr) : SelectedAnswer :=
  { id := i, nodeId := "root".data, answerId := aid, label := "Male".data,
    questionText := qt }

/-- C3 counterexample: a single committed answer labelled `"Male"` at the
root node (here with no stored question text) assembles to `"Male"` with
the label's original capitalization, not to `"male"` as the claim
states. -/
theorem C3_counterexample :
    (assemblePrompt [maleAnswer ("s1".data) ("male".data) none] [] [] []).1 ≠ "male".data := by
  decide

/-- C3 (amended): for a single committed answer labelled `"Male"` at node
`"root"`, with no refinements, weights or custom elements, and a stored
question text that is absent or matches neither subject-extraction
pattern, the assembled prompt is exactly `"Male"` (the assembler never
lower-cases a label it leaves unexpanded and applies no body-type or
subject suffix here), and the negative prompt is the fixed six-item base
list. -/
theorem C3_male_scenario (i aid : JStr) (qt : Option JStr)
    (hq : ∀ q, qt = some q → subjectMatch (jsToLower q) = none) :
    assemblePrompt [maleAnswer i aid qt] [] [] [] =
      ("Male".data,
       "deformed, distorted, extra limbs, low detail, low quality, bad anatomy".data) := by
  have hap : answerPart (maleAnswer i aid qt) = "Male".data := by
    have hcb : ("root".data : JStr) ≠ "character-build".data := by decide
    have habs : decide (jsTrim (jsToLower ("Male".data)) ∈ ABSTRACT_ANSWERS) = false := by
      decide
    rcases qt with _ | q
    · simp [answerPart, maleAnswer, truthyS, hcb]
    · by_cases hq0 : q = []
      · subst hq0
        simp [answerPart, maleAnswer, truthyS, hcb]
      · have ht : truthyS (some q) = true := by
          simp [truthyS, List.isEmpty_iff, hq0]
        have hm := hq q rfl
        simp only [answerPart, maleAnswer, ht, expand_male, habs, if_true, Bool.and_true,
          Bool.not_false, if_neg hcb, Option.getD_some, hm]
        exact expand_male q
  simp only [assemblePrompt, List.map_cons, List.map_nil, hap, weightPartsOf, weightsFold,
    List.foldl_nil, List.filter_nil, List.map_nil, List.append_nil, List.nil_append]
  decide

/-- C3 witness. -/
theorem C3_witness :
    assemblePrompt [maleAnswer ("s1".data) ("male".data) none] [] [] [] =
      ("Male".data,
       "deformed, distorted, extra limbs, low detail, low quality, bad anatomy".data) :=
  C3_male_scenario ("s1".data) ("male".data) none (fun _ h => Option.noConfusion h)

/-! ## The weights loop as emission plus deduplication (shared by C4, C8) -/

/-- `none` when the weights loop skips `w` outright (an intensity weight
bound to a root answer, or an intensity weight without a truthy label);
otherwise the sanitized text and the value the loop would emit for `w`. -/
def emitText? (answers : List SelectedAnswer) (w : WeightValue) : Option (JStr × ℚ) :=
  if w.attrId = "intensity".data ∧ truthyS w.answerLabel then
    if isRootAnswerB answers w then none
    else some (sanitizeTemplate (jsToLower (w.answerLabel.getD [])) (w.tags.getD []), w.value)
  else if w.attrId = "intensity".data ∧ ¬truthyS w.answerLabel then none
  else some (weightSafeTemplate w, w.value)

/-- One deduplication step over `(seen, pairs)`. -/
def dedupStep (acc : List JStr × List (JStr × ℚ)) (p : JStr × ℚ) :
    List JStr × List (JStr × ℚ) :=
  if p.1 ∈ acc.1 then acc else (acc.1 ++ [p.1], acc.2 ++ [p])

/-- The `(text, value)` pairs the weights loop emits, in order. -/
def weightPairs (answers : List SelectedAnswer) (ws : List WeightValue) :
    List (JStr × ℚ) :=
  ((ws.filterMap (emitText? answers)).foldl dedupStep ([], [])).2

/-- `weightStep` factored through `emitText?`. -/
theorem weightStep_eq (answers : List SelectedAnswer) (seen parts : List JStr)
    (w : WeightValue) :
    weightStep answers (seen, parts) w =
      match emitText? answers w with
      | none => (seen, parts)
      | some p => if p.1 ∈ seen then (seen, parts)
          else (seen ++ [p.1], parts ++ [renderFrag p]) := by
  simp only [weightStep, emitText?]
  by_cases h1 : w.attrId = "intensity".data ∧ truthyS w.answerLabel
  · rw [if_pos h1, if_pos h1]
    by_cases h2 : isRootAnswerB answers w
    · rw [if_pos h2, if_pos h2]
    · rw [if_neg h2, if_neg h2]
  · rw [if_neg h1, if_neg h1]
    by_cases h3 : w.attrId = "intensity".data ∧ ¬truthyS w.answerLabel
    · rw [if_pos h3, if_pos h3]
    · rw [if_neg h3, if_neg h3]

/-- The weights fold is the render of the deduplication fold. -/
theorem weightsFold_eq_dedup (answers : List SelectedAnswer) (ws : List WeightValue)
    (seen : List JStr) (parts : List (JStr × ℚ)) :
    ws.foldl (weightStep answers) (seen, parts.map renderFrag) =
      (((ws.filterMap (emitText? answers)).foldl dedupStep (seen, parts)).1,
       ((ws.filterMap (emitText? answers)).foldl dedupStep (seen, parts)).2.map renderFrag) := by
  induction ws generalizing seen parts with
  | nil => simp
  | cons w ws ih =>
    simp only [List.foldl_cons, List.filterMap_cons]
    rw [weightStep_eq]
    cases h : emitText? answers w with
    | none =>
      exact ih seen parts
    | some p =>
      dsimp only
      by_cases hm : p.1 ∈ seen
      · rw [if_pos hm, List.foldl_cons,
          show dedupStep (seen, parts) p = (seen, parts) from by simp [dedupStep, hm]]
        exact ih seen parts
      · rw [if_neg hm, List.foldl_cons,
          show dedupStep (seen, parts) p = (seen ++ [p.1], parts ++ [p]) from by
            simp [dedupStep, hm]]
        have h2 := ih (seen ++ [p.1]) (parts ++ [p])
        simpa [List.map_append] using h2

/-- The parts the weights loop contributes are the rendered deduplicated
pairs. -/
theorem weightParts_eq (answers : List SelectedAnswer) (ws : List WeightValue) :
    weightPartsOf answers ws = (weightPairs answers ws).map renderFrag := by
  have h := weightsFold_eq_dedup answers ws [] []
  simp only [List.map_nil] at h
  unfold weightPartsOf weightsFold weightPairs
  rw [h]

/-- Filtering the deduplicated pairs for one text: the entries of the
accumulator plus, when the text is not yet seen, the first pending pair
with that text. -/
theorem dedup_filter (s : JStr) (ps : List (JStr × ℚ)) (seen : List JStr)
    (acc : List (JStr × ℚ)) :
    ((ps.foldl dedupStep (seen, acc)).2).filter (fun p => p.1 == s) =
      acc.filter (fun p => p.1 == s) ++
        (if s ∈ seen then [] else
          match ps.find? (fun p => p.1 == s) with
          | some p => [p]
          | none => []) := by
  induction ps generalizing seen acc with
  | nil => simp
  | cons p ps ih =>
    simp only [List.foldl_cons]
    by_cases hqs : p.1 = s
    · have hpred : (fun q : JStr × ℚ => q.1 == s) p = true := by simp [hqs]
      have hfind : (p :: ps).find? (fun q => q.1 == s) = some p :=
        List.find?_cons_of_pos _ hpred
      by_cases hp : p.1 ∈ seen
      · have hs : s ∈ seen := by rwa [hqs] at hp
        rw [show dedupStep (seen, acc) p = (seen, acc) from by simp [dedupStep, hp],
          ih, if_pos hs, if_pos hs]
      · have hs : s ∉ seen := by rwa [hqs] at hp
        rw [show dedupStep (seen, acc) p = (seen ++ [p.1], acc ++ [p]) from by
            simp [dedupStep, hp],
          ih, if_neg hs, hfind]
        have hsin : s ∈ seen ++ [p.1] := by simp [hqs]
        simp [List.filter_append, hsin, hpred]
    · have hpred : (fun q : JStr × ℚ => q.1 == s) p = false := by
        simp [hqs]
      have hfind : (p :: ps).find? (fun q => q.1 == s) = ps.find? (fun q => q.1 == s) :=
        List.find?_cons_of_neg _ (by simp [hpred])
      have hqs' : ¬s = p.1 := fun h => hqs h.symm
      by_cases hp : p.1 ∈ seen
      · rw [show dedupStep (seen, acc) p = (seen, acc) from by simp [dedupStep, hp],
          ih, hfind]
      · rw [show dedupStep (seen, acc) p = (seen ++ [p.1], acc ++ [p]) from by
            simp [dedupStep, hp],
          ih, hfind]
        have hmem : (s ∈ seen ++ [p.1]) = (s ∈ seen) := by
          simp [List.mem_append, hqs']
        simp [List.filter_append, hpred, hmem]

/-! ## Claim C8: weight deduplication keeps the first value -/

/-- C8: if two weights both pass the guards and sanitize to the same
text `s`, then the weights loop emits exactly one pair with text `s`,
whose value is that of the first such weight in collection order
(`find?`), and the emitted parts are exactly the rendered `(text:value)`
pairs. -/
theorem C8_dedup_first (answers : List SelectedAnswer) (ws₁ ws₂ ws₃ : List WeightValue)
    (w w' : WeightValue) (s : JStr) (v₁ v₂ : ℚ)
    (hw : emitText? answers w = some (s, v₁))
    (hw' : emitText? answers w' = some (s, v₂)) :
    ∃ v, ((ws₁ ++ w :: ws₂ ++ w' :: ws₃).filterMap (emitText? answers)).find?
        (fun p => p.1 == s) = some (s, v) ∧
      (weightPairs answers (ws₁ ++ w :: ws₂ ++ w' :: ws₃)).filter
        (fun p => p.1 == s) = [(s, v)] ∧
      weightPartsOf answers (ws₁ ++ w :: ws₂ ++ w' :: ws₃) =
        (weightPairs answers (ws₁ ++ w :: ws₂ ++ w' :: ws₃)).map renderFrag := by
  have hmem : (s, v₁) ∈ (ws₁ ++ w :: ws₂ ++ w' :: ws₃).filterMap (emitText? answers) :=
    List.mem_filterMap.mpr ⟨w, by simp, hw⟩
  have hsome : (((ws₁ ++ w :: ws₂ ++ w' :: ws₃).filterMap (emitText? answers)).find?
      (fun p => p.1 == s)).isSome :=
    List.find?_isSome.mpr ⟨(s, v₁), hmem, by simp⟩
  obtain ⟨p, hp⟩ := Option.isSome_iff_exists.mp hsome
  obtain ⟨t, v⟩ := p
  have hts : t = s := by simpa using List.find?_some hp
  subst hts
  refine ⟨v, hp, ?_, weightParts_eq _ _⟩
  unfold weightPairs
  rw [dedup_filter, if_neg (List.not_mem_nil _), hp]
  simp

/-- The two weights of the C8 witness: intensity weights with the same
label `"glow"` and different values. -/
def exIntensityGlow1 : WeightValue :=
  { id := "w1".data, attrId := "intensity".data, value := 1,
    template := "intensity".data, tags := none,
    associatedAnswerId := some ("a1".data), answerLabel := some ("glow".data) }

/-- Second C8 witness weight (value `0.5`). -/
def exIntensityGlow2 : WeightValue :=
  { id := "w2".data, attrId := "intensity".data, value := mkRat 1 2,
    template := "intensity".data, tags := none,
    associatedAnswerId := some ("a1".data), answerLabel := some ("glow".data) }

/-- C8 witness. -/
theorem C8_witness :
    ∃ v, (([] ++ exIntensityGlow1 :: [] ++ exIntensityGlow2 :: []).filterMap
        (emitText? [])).find? (fun p => p.1 == "glow".data) = some ("glow".data, v) ∧
      (weightPairs [] ([] ++ exIntensityGlow1 :: [] ++ exIntensityGlow2 :: [])).filter
        (fun p => p.1 == "glow".data) = [("glow".data, v)] ∧
      weightPartsOf [] ([] ++ exIntensityGlow1 :: [] ++ exIntensityGlow2 :: []) =
        (weightPairs [] ([] ++ exIntensityGlow1 :: [] ++ exIntensityGlow2 :: [])).map
          renderFrag :=
  C8_dedup_first [] [] [] [] exIntensityGlow1 exIntensityGlow2 ("glow".data) 1 (mkRat 1 2)
    (by decide) (by decide)

/-! ## Claim C4: intensity weights — root skip, emission, deduplication -/

/-- The two weights of the C4 counterexample (same label, different
values, not bound to any root answer). -/
def exIntensityDupA : WeightValue :=
  { id := "w1".data, attrId := "intensity".data, value := 1,
    template := "intensity".data, tags := none,
    associatedAnswerId := some ("a1".data), answerLabel := some ("glow".data) }

/-- Second C4 counterexample weight (value `0.5`). -/
def exIntensityDupB : WeightValue :=
  { id := "w2".data, attrId := "intensity".data, value := mkRat 1 2,
    template := "intensity".data, tags := none,
    associatedAnswerId := some ("a1".data), answerLabel := some ("glow".data) }

/-- C4 counterexample: two non-root intensity weights with the same
label are *not* both emitted — the second is deduplicated away, so its
`(glow:0.50)` fragment never appears in the assembled prompt. -/
theorem C4_counterexample :
    (assemblePrompt [] [] [exIntensityDupA, exIntensityDupB] []).1 = "(glow:1.00)".data ∧
    ¬("(glow:0.50)".data <:+: (assemblePrompt [] [] [exIntensityDupA, exIntensityDupB] []).1) := by
  exact ⟨by decide, by decide⟩

/-- C4 (amended): an intensity weight bound to a committed root answer
contributes no fragment (dropping it from the weight list leaves the
emitted parts unchanged); any other intensity weight with a truthy
selection label is emitted as `(sanitizedLabel:value)` — rendered by
`renderFrag`, whose value is printed by `toFixed2` with exactly two
decimal places — unless its sanitized label was already emitted this
pass, in which case it is skipped (exact-string deduplication). -/
theorem C4_intensity_handling :
    (∀ (answers : List SelectedAnswer) (ws₁ ws₂ : List WeightValue) (w : WeightValue),
      w.attrId = "intensity".data → truthyS w.answerLabel = true →
      isRootAnswerB answers w = true →
      weightPartsOf answers (ws₁ ++ w :: ws₂) = weightPartsOf answers (ws₁ ++ ws₂)) ∧
    (∀ (answers : List SelectedAnswer) (seen parts : List JStr) (w : WeightValue),
      w.attrId = "intensity".data → truthyS w.answerLabel = true →
      isRootAnswerB answers w = false →
      sanitizeTemplate (jsToLower (w.answerLabel.getD [])) (w.tags.getD []) ∉ seen →
      weightStep answers (seen, parts) w =
        (seen ++ [sanitizeTemplate (jsToLower (w.answerLabel.getD [])) (w.tags.getD [])],
         parts ++ [renderFrag
           (sanitizeTemplate (jsToLower (w.answerLabel.getD [])) (w.tags.getD []),
            w.value)])) ∧
    (∀ (answers : List SelectedAnswer) (seen parts : List JStr) (w : WeightValue),
      w.attrId = "intensity".data → truthyS w.answerLabel = true →
      isRootAnswerB answers w = false →
      sanitizeTemplate (jsToLower (w.answerLabel.getD [])) (w.tags.getD []) ∈ seen →
      weightStep answers (seen, parts) w = (seen, parts)) := by
  refine ⟨?_, ?_, ?_⟩
  · intro answers ws₁ ws₂ w h1 h2 h3
    have hnone : emitText? answers w = none := by
      unfold emitText?
      rw [if_pos ⟨h1, h2⟩, if_pos h3]
    rw [weightParts_eq, weightParts_eq]
    unfold weightPairs
    simp [List.filterMap_append, List.filterMap_cons, hnone]
  · intro answers seen parts w h1 h2 h3 h4
    have hsome : emitText? answers w =
        some (sanitizeTemplate (jsToLower (w.answerLabel.getD [])) (w.tags.getD []),
          w.value) := by
      unfold emitText?
      rw [if_pos ⟨h1, h2⟩, if_neg (by simp [h3])]
    rw [weightStep_eq, hsome]
    simp [h4]
  · intro answers seen parts w h1 h2 h3 h4
    have hsome : emitText? answers w =
        some (sanitizeTemplate (jsToLower (w.answerLabel.getD [])) (w.tags.getD []),
          w.value) := by
      unfold emitText?
      rw [if_pos ⟨h1, h2⟩, if_neg (by simp [h3])]
    rw [weightStep_eq, hsome]
    simp [h4]

/-- The committed root answer of the C4 witness. -/
def exRootAnswerC4 : SelectedAnswer :=
  { id := "a9".data, nodeId := "root".data, answerId := "x".data,
    label := "Glow".data, questionText := none }

/-- The intensity weight bound to the root answer of the C4 witness. -/
def exRootIntensityC4 : WeightValue :=
  { id := "w9".data, attrId := "intensity".data, value := 1,
    template := "intensity".data, tags := none,
    associatedAnswerId := some ("a9".data), answerLabel := some ("Glow".data) }

/-- C4 witness. -/
theorem C4_witness :
    weightPartsOf [exRootAnswerC4] ([] ++ exRootIntensityC4 :: []) =
      weightPartsOf [exRootAnswerC4] ([] ++ []) ∧
    weightStep [] ([], []) exIntensityDupA =
      ([] ++ [sanitizeTemplate (jsToLower (exIntensityDupA.answerLabel.getD []))
          (exIntensityDupA.tags.getD [])],
       [] ++ [renderFrag
         (sanitizeTemplate (jsToLower (exIntensityDupA.answerLabel.getD []))
            (exIntensityDupA.tags.getD []),
          exIntensityDupA.value)]) :=
  ⟨C4_intensity_handling.1 [exRootAnswerC4] [] [] exRootIntensityC4 rfl (by decide)
      (by decide),
   C4_intensity_handling.2.1 [] [] [] exIntensityDupA rfl (by decide) (by decide)
      (by decide)⟩

/-! ## Claim C5: history discipline of `previous`/`goToNext` -/

/-- Every `goToNext` either leaves the state unchanged or pushes one node
onto the history and makes it current. -/
theorem goToNext_cases (g : NodeMap) (s : EngineState) :
    goToNext g s = s ∨ ∃ nid, (goToNext g s).history = s.history ++ [nid] ∧
      (goToNext g s).currentNodeId = nid := by
  unfold goToNext
  rcases amGet g s.currentNodeId with _ | node
  · exact Or.inl rfl
  · dsimp only
    repeat' split
    all_goals first
      | exact Or.inl rfl
      | exact Or.inr ⟨_, rfl, rfl⟩

/-- `previous` pops exactly the pushed entry: on a state whose history is
`h ++ [n]` with `h` nonempty and ending in `c`, it returns to history `h`
and current node `c`. -/
theorem previous_of_push (t : EngineState) (h : List JStr) (n c : JStr)
    (hh : t.history = h ++ [n]) (hne : h ≠ [])
    (hl : h.getLast? = some c) :
    (previous t).currentNodeId = c ∧ (previous t).history = h := by
  have hlen : ¬t.history.length ≤ 1 := by
    rw [hh]
    simp only [List.length_append, List.length_cons, List.length_nil]
    have := List.length_pos.mpr hne
    omega
  unfold previous
  rw [if_neg hlen]
  have hdrop : t.history.dropLast = h := by
    rw [hh]
    exact List.dropLast_concat ▸ rfl
  constructor
  · show (t.history.dropLast.getLast?.getD t.currentNodeId) = c
    rw [hdrop, hl]
    rfl
  · show t.history.dropLast = h
    exact hdrop

/-- All of the first `N` `goToNext` transitions from `s` succeed (each
pushes onto the history). -/
def advOK (g : NodeMap) : EngineState → Nat → Prop
  | _, 0 => True
  | s, n + 1 =>
    (goToNext g s).history.length = s.history.length + 1 ∧ advOK g (goToNext g s) n

/-- A successful `goToNext` is a push. -/
theorem goToNext_push (g : NodeMap) (s : EngineState)
    (h : (goToNext g s).history.length = s.history.length + 1) :
    ∃ nid, (goToNext g s).history = s.history ++ [nid] ∧
      (goToNext g s).currentNodeId = nid := by
  rcases goToNext_cases g s with heq | hpush
  · rw [heq] at h
    omega
  · exact hpush

/-- Round trip: `N` successful advances then `N` pops restore the current
node and the history, provided the current node is the top of history. -/
theorem advPrev_roundtrip (g : NodeMap) : ∀ (N : Nat) (s : EngineState),
    s.history.getLast? = some s.currentNodeId → advOK g s N →
    (previous^[N] ((goToNext g)^[N] s)).currentNodeId = s.currentNodeId ∧
    (previous^[N] ((goToNext g)^[N] s)).history = s.history := by
  intro N
  induction N with
  | zero => intro s _ _; exact ⟨rfl, rfl⟩
  | succ n ih =>
    intro s h2 h3
    have h1 : s.history ≠ [] := by
      intro he
      rw [he] at h2
      exact Option.noConfusion h2
    obtain ⟨hstep, hrest⟩ := h3
    obtain ⟨nid, hh, hc⟩ := goToNext_push g s hstep
    have h2' : (goToNext g s).history.getLast? = some (goToNext g s).currentNodeId := by
      rw [hh, hc]
      simp
    have ihh := ih (goToNext g s) h2' hrest
    rw [show (goToNext g)^[n + 1] s = (goToNext g)^[n] (goToNext g s) from
        Function.iterate_succ_apply _ _ _,
      show previous^[n + 1] ((goToNext g)^[n] (goToNext g s)) =
          previous (previous^[n] ((goToNext g)^[n] (goToNext g s))) from
        Function.iterate_succ_apply' _ _ _]
    have hth : (previous^[n] ((goToNext g)^[n] (goToNext g s))).history =
        s.history ++ [nid] := ihh.2.trans hh
    exact previous_of_push _ s.history nid s.currentNodeId hth h1 h2

/-- The one-node graph of the C5 counterexample: the root question with a
single answer leading to `"na"`. -/
def exGraphC5 : NodeMap :=
  [("root".data,
    { id := "root".data, question := "Q".data,
      answers := some [{ id := "a".data, label := "A".data, next := some ("na".data) }],
      weights := none, refinements := none })]

/-- The C5 counterexample state: reachable by `jumpTo` back into history —
its current node `"root"` is *not* the top of the history stack. -/
def exStateC5 : EngineState :=
  { initState with
      history := ["root".data, "na".data]
      tempAnswers := [("root".data,
        { id := "t".data, nodeId := "root".data, answerId := "a".data,
          label := "A".data, questionText := some ("Q".data) })] }

/-- C5 counterexample: from a state whose current node is not the top of
history (current `"root"`, history `["root", "na"]`), one successful
advance followed by one `previous()` lands on `"na"`, not back on
`"root"` — the claimed round trip fails for `N = 1`. -/
theorem C5_counterexample :
    (goToNext exGraphC5 exStateC5).history.length = exStateC5.history.length + 1 ∧
    (previous (goToNext exGraphC5 exStateC5)).currentNodeId ≠ exStateC5.currentNodeId := by
  exact ⟨by decide, by decide⟩

/-- C5 (amended): `previous()` never reduces the history below length 1
(no-op when only one entry remains); and whenever the current node is
the top of the history stack — which every advance preserves, but an
in-history `jumpTo` can break — `N` successful `goToNext` transitions
followed by `N` `previous()` calls restore `currentNodeId`. -/
theorem C5_history_discipline :
    (∀ s : EngineState, 1 ≤ s.history.length → 1 ≤ (previous s).history.length) ∧
    (∀ (g : NodeMap) (s : EngineState) (N : Nat),
      s.history.getLast? = some s.currentNodeId → advOK g s N →
      (previous^[N] ((goToNext g)^[N] s)).currentNodeId = s.currentNodeId) := by
  constructor
  · intro s h
    unfold previous
    split
    · exact h
    · rename_i hlen
      show 1 ≤ s.history.dropLast.length
      rw [List.length_dropLast]
      omega
  · intro g s N h2 h3
    exact (advPrev_roundtrip g N s h2 h3).1

/-- The aligned C5 witness state: current `"root"`, history `["root"]`,
with a temp answer so that the advance succeeds. -/
def exStateC5b : EngineState :=
  { initState with
      tempAnswers := [("root".data,
        { id := "t".data, nodeId := "root".data, answerId := "a".data,
          label := "A".data, questionText := some ("Q".data) })] }

/-- C5 witness. -/
theorem C5_witness :
    1 ≤ (previous initState).history.length ∧
    (previous^[1] ((goToNext exGraphC5)^[1] exStateC5b)).currentNodeId =
      exStateC5b.currentNodeId :=
  ⟨C5_history_discipline.1 initState (by decide),
   C5_history_discipline.2 exGraphC5 exStateC5b 1 (by decide) ⟨by decide, trivial⟩⟩

/-! ## Claim C10: the history invariant over all reachable states -/

/-- Engine states reachable from session start by any sequence of engine
operations (the node map `g` and all operation arguments are
arbitrary). -/
inductive Reachable (g : NodeMap) : EngineState → Prop where
  | init : Reachable g initState
  | selectA (s : EngineState) (aid : JStr) :
      Reachable g s → Reachable g (selectTempAnswer g s aid)
  | selectR (s : EngineState) (aid : JStr) :
      Reachable g s → Reachable g (selectTempRefinement g s aid)
  | commit (s : EngineState) (f1 f2 salt : JStr) :
      Reachable g s → Reachable g (commitCurrentSelections g s f1 f2 salt)
  | advance (s : EngineState) : Reachable g s → Reachable g (goToNext g s)
  | skip (s : EngineState) : Reachable g s → Reachable g (skipToNext g s)
  | back (s : EngineState) : Reachable g s → Reachable g (previous s)
  | jump (s : EngineState) (nid : JStr) : Reachable g s → Reachable g (jumpTo g s nid)
  | catJump (s : EngineState) (nid : JStr) :
      Reachable g s → Reachable g (jumpToCategory g s nid)
  | intensity (s : EngineState) (nid : JStr) (v : ℚ) :
      Reachable g s → Reachable g (setIntensity s nid v)
  | slider (s : EngineState) (aid : JStr) (b : Bool) :
      Reachable g s → Reachable g (setSliderEnabled s aid b)
  | weight (s : EngineState) (aid : JStr) (v : ℚ) (t : JStr) (tags : Option (List JStr)) :
      Reachable g s → Reachable g (setWeight s aid v t tags)
  | addCE (s : EngineState) (e : JStr) : Reachable g s → Reachable g (addCustomElement s e)
  | remCE (s : EngineState) (i : Nat) :
      Reachable g s → Reachable g (removeCustomElement s i)
  | togCE (s : EngineState) (i : Nat) :
      Reachable g s → Reachable g (toggleCustomElement s i)
  | typeCE (s : EngineState) (i : Nat) (t : CEType) :
      Reachable g s → Reachable g (setCustomElementType s i t)
  | remove (s : EngineState) (sid : JStr) :
      Reachable g s → Reachable g (removeSelection s sid)
  | doReset (s : EngineState) : Reachable g s → Reachable g (resetEngine s)

/-- Appending to a nonempty list keeps its head. -/
theorem head?_append_singleton {α : Type} (h : List α) (x : α) (hne : h ≠ []) :
    (h ++ [x]).head? = h.head? := by
  cases h with
  | nil => exact absurd rfl hne
  | cons a t => rfl

/-- Dropping the last entry of a list of length at least two keeps it
nonempty and keeps its head. -/
theorem dropLast_keeps_head {α : Type} (l : List α) (hl : 2 ≤ l.length) :
    l.dropLast ≠ [] ∧ l.dropLast.head? = l.head? := by
  match l, hl with
  | a :: b :: t, _ => exact ⟨by simp, rfl⟩

/-- `selectTempAnswer` never touches the history. -/
theorem selectTempAnswer_history (g : NodeMap) (s : EngineState) (aid : JStr) :
    (selectTempAnswer g s aid).history = s.history := by
  unfold selectTempAnswer
  repeat' split
  all_goals rfl

/-- `selectTempRefinement` never touches the history. -/
theorem selectTempRefinement_history (g : NodeMap) (s : EngineState) (aid : JStr) :
    (selectTempRefinement g s aid).history = s.history := by
  unfold selectTempRefinement
  repeat' split
  all_goals first
    | rfl
    | (dsimp only; split <;> rfl)

/-- `skipToNext` either leaves the state unchanged or pushes one entry. -/
theorem skipToNext_cases (g : NodeMap) (s : EngineState) :
    skipToNext g s = s ∨ ∃ nid, (skipToNext g s).history = s.history ++ [nid] := by
  unfold skipToNext skipToNext.skipToRefinement
  rcases amGet g s.currentNodeId with _ | node
  · exact Or.inl rfl
  · dsimp only
    repeat' split
    all_goals first
      | exact Or.inl rfl
      | exact Or.inr ⟨_, rfl⟩

/-- `jumpTo` keeps the history or appends the target. -/
theorem jumpTo_cases (g : NodeMap) (s : EngineState) (nid : JStr) :
    (jumpTo g s nid).history = s.history ∨
      (jumpTo g s nid).history = s.history ++ [nid] := by
  unfold jumpTo
  dsimp only
  repeat' split
  all_goals first
    | exact Or.inl rfl
    | exact Or.inr rfl

/-- `jumpToCategory` keeps the history or appends the target. -/
theorem jumpToCategory_cases (g : NodeMap) (s : EngineState) (nid : JStr) :
    (jumpToCategory g s nid).history = s.history ∨
      (jumpToCategory g s nid).history = s.history ++ [nid] := by
  unfold jumpToCategory
  dsimp only
  repeat' split
  all_goals first
    | exact Or.inl rfl
    | exact Or.inr rfl

/-- C10: in every reachable engine state the history is nonempty and its
first element is `"root"`. -/
theorem C10_history_root (g : NodeMap) (s : EngineState) (h : Reachable g s) :
    s.history ≠ [] ∧ s.history.head? = some ("root".data) := by
  induction h with
  | init => exact ⟨by decide, rfl⟩
  | selectA s aid _ ih => rw [selectTempAnswer_history]; exact ih
  | selectR s aid _ ih => rw [selectTempRefinement_history]; exact ih
  | commit s f1 f2 salt _ ih => exact ih
  | advance s _ ih =>
    rcases goToNext_cases g s with heq | ⟨nid, hh, _⟩
    · rw [heq]; exact ih
    · rw [hh]
      exact ⟨by simp, (head?_append_singleton _ _ ih.1).trans ih.2⟩
  | skip s _ ih =>
    rcases skipToNext_cases g s with heq | ⟨nid, hh⟩
    · rw [heq]; exact ih
    · rw [hh]
      exact ⟨by simp, (head?_append_singleton _ _ ih.1).trans ih.2⟩
  | back s _ ih =>
    unfold previous
    split
    · exact ih
    · rename_i hlen
      have h2 : 2 ≤ s.history.length := by omega
      have hd := dropLast_keeps_head s.history h2
      exact ⟨hd.1, hd.2.trans ih.2⟩
  | jump s nid _ ih =>
    rcases jumpTo_cases g s nid with hh | hh <;> rw [hh]
    · exact ih
    · exact ⟨by simp, (head?_append_singleton _ _ ih.1).trans ih.2⟩
  | catJump s nid _ ih =>
    rcases jumpToCategory_cases g s nid with hh | hh <;> rw [hh]
    · exact ih
    · exact ⟨by simp, (head?_append_singleton _ _ ih.1).trans ih.2⟩
  | intensity s nid v _ ih => exact ih
  | slider s aid b _ ih => exact ih
  | weight s aid v t tags _ ih => exact ih
  | addCE s e _ ih => exact ih
  | remCE s i _ ih => exact ih
  | togCE s i _ ih => exact ih
  | typeCE s i t _ ih => exact ih
  | remove s sid _ ih => exact ih
  | doReset s _ _ => exact ⟨by simp [resetEngine, initState], rfl⟩

/-- C10 witness: the invariant at a concrete reachable state (session
start followed by a `previous()` call, which is a no-op there). -/
theorem C10_witness :
    (previous initState).history ≠ [] ∧
    (previous initState).history.head? = some ("root".data) :=
  C10_history_root ([] : NodeMap) (previous initState)
    (Reachable.back initState Reachable.init)

/-! ## Claim C1: idempotence of `normalizeTemplate`

The amended claim restricts the tag list to the eleven rules that are
idempotent-on-match (`hair`, `face` and `materials` are not), and to
templates whose lower-cased trimmed form is nonempty (the conditional
prefix rules append a trailing space to an empty template, which the
second pass trims away). -/

/-- `Char.ofNat` inverts `toNat` on BMP code points. -/
theorem toNat_ofNat_valid (n : Nat) (h : n < 55296) : (Char.ofNat n).toNat = n := by
  rw [Char.ofNat, dif_pos (Or.inl h : Nat.isValidChar n)]
  simp [Char.ofNatAux, Char.toNat, UInt32.ofNat', BitVec.ofNatLt, UInt32.toNat]

/-- Lowering a character never yields an ASCII uppercase letter. -/
theorem lowerChar_not_upper (c : Char) : isUpperA (lowerChar c) = false := by
  unfold lowerChar isUpperA
  split
  · rename_i h
    have h32 : c.toNat + 32 < 55296 := by omega
    rw [toNat_ofNat_valid _ h32]
    exact decide_eq_false (by omega)
  · rename_i h
    exact decide_eq_false h

/-- Lowering is the identity below the uppercase range. -/
theorem lowerChar_id (c : Char) (h : isUpperA c = false) : lowerChar c = c := by
  unfold isUpperA at h
  rw [decide_eq_false_iff_not] at h
  exact if_neg h

/-- No character of `s` is an ASCII uppercase letter. -/
def NoUpper (s : JStr) : Prop := ∀ c ∈ s, isUpperA c = false

theorem noUpper_jsToLower (s : JStr) : NoUpper (jsToLower s) := by
  intro c hc
  obtain ⟨d, _, rfl⟩ := List.mem_map.mp hc
  exact lowerChar_not_upper d

theorem jsToLower_id (s : JStr) (h : NoUpper s) : jsToLower s = s := by
  unfold jsToLower
  induction s with
  | nil => rfl
  | cons a t ih =>
    rw [List.map_cons, lowerChar_id a (h a (List.mem_cons_self a t)),
      ih (fun c hc => h c (List.mem_cons_of_mem a hc))]

theorem noUpper_sublist {s t : JStr} (hsub : s.Sublist t) (h : NoUpper t) : NoUpper s :=
  fun c hc => h c (hsub.subset hc)

theorem noUpper_append {a b : JStr} (ha : NoUpper a) (hb : NoUpper b) : NoUpper (a ++ b) :=
  fun c hc => (List.mem_append.mp hc).elim (ha c) (hb c)

theorem noUpper_reverse {s : JStr} (h : NoUpper s) : NoUpper s.reverse :=
  fun c hc => h c (List.mem_reverse.mp hc)

theorem noUpper_jsTrim {s : JStr} (h : NoUpper s) : NoUpper (jsTrim s) := by
  unfold jsTrim trimLeftL
  exact noUpper_reverse (noUpper_sublist (List.dropWhile_sublist _)
    (noUpper_reverse (noUpper_sublist (List.dropWhile_sublist _) h)))

/-- The head of `l`, if any, is not whitespace. -/
def headNotWs (l : JStr) : Bool :=
  match l.head? with
  | none => true
  | some c => !c.isWhitespace

theorem ws_false_of_headNotWs {l : JStr} {c : Char} (h : headNotWs l = true)
    (hc : l.head? = some c) : c.isWhitespace = false := by
  unfold headNotWs at h
  rw [hc] at h
  simpa using h

/-- The head left by `dropWhile` fails the predicate. -/
theorem headNotWs_trimLeft (l : JStr) : headNotWs (trimLeftL l) = true := by
  induction l with
  | nil => rfl
  | cons a t ih =>
    rw [trimLeftL, List.dropWhile_cons]
    split
    · exact ih
    · rename_i hws
      unfold headNotWs
      rw [List.head?_cons]
      simpa using hws

theorem trimLeft_of_head (l : JStr) (h : headNotWs l = true) : trimLeftL l = l := by
  cases l with
  | nil => rfl
  | cons a t =>
    unfold headNotWs at h
    rw [List.head?_cons] at h
    rw [trimLeftL, List.dropWhile_cons, if_neg (by simpa using h)]

theorem headNotWs_of_trimLeft_id (l : JStr) (h : trimLeftL l = l) : headNotWs l = true := by
  cases l with
  | nil => rfl
  | cons a t =>
    unfold headNotWs
    rw [List.head?_cons]
    by_contra hcon
    have hws : a.isWhitespace = true := by simpa using hcon
    rw [trimLeftL, List.dropWhile_cons, if_pos hws] at h
    have hlen := congrArg List.length h
    have hle : (t.dropWhile Char.isWhitespace).length ≤ t.length :=
      (List.dropWhile_sublist _).length_le
    simp only [List.length_cons] at hlen
    omega

theorem trimLeft_idem (l : JStr) : trimLeftL (trimLeftL l) = trimLeftL l :=
  trimLeft_of_head _ (headNotWs_trimLeft l)

/-- Trimmed on both ends. -/
def TrimmedL (s : JStr) : Prop := trimLeftL s = s ∧ trimLeftL s.reverse = s.reverse

theorem head?_append_left {α : Type} (a b : List α) (ha : a ≠ []) :
    (a ++ b).head? = a.head? := by
  cases a with
  | nil => exact absurd rfl ha
  | cons x t => rfl

theorem getLast?_eq_of_suffix {α : Type} {s l : List α} (h : s <:+ l) (hne : s ≠ []) :
    l.getLast? = s.getLast? := by
  obtain ⟨u, rfl⟩ := h
  rw [List.getLast?_append_of_ne_nil _ hne]

theorem trimmed_jsTrim (s : JStr) : TrimmedL (jsTrim s) := by
  constructor
  · apply trimLeft_of_head
    unfold headNotWs
    cases hc : (jsTrim s).head? with
    | none => rfl
    | some c =>
      rw [jsTrim, List.head?_reverse] at hc
      have hsuf : trimLeftL (trimLeftL s).reverse <:+ (trimLeftL s).reverse :=
        List.dropWhile_suffix _
      have hne : trimLeftL (trimLeftL s).reverse ≠ [] := by
        intro h0
        rw [h0] at hc
        cases hc
      have hgl : (trimLeftL s).reverse.getLast? = some c :=
        (getLast?_eq_of_suffix hsuf hne).trans hc
      rw [List.getLast?_reverse] at hgl
      have := ws_false_of_headNotWs (headNotWs_trimLeft s) hgl
      simp [this]
  · rw [jsTrim, List.reverse_reverse]
    exact trimLeft_idem _

theorem jsTrim_id (s : JStr) (h : TrimmedL s) : jsTrim s = s := by
  rw [jsTrim, h.1, h.2, List.reverse_reverse]

/-- Prepending a nonempty non-whitespace-headed literal to a nonempty
trimmed string stays trimmed. -/
theorem trimmed_lit_append (lit t : JStr) (hlit : lit ≠ [])
    (hhead : headNotWs lit = true) (ht : TrimmedL t) (htne : t ≠ []) :
    TrimmedL (lit ++ t) := by
  constructor
  · apply trimLeft_of_head
    unfold headNotWs
    rw [head?_append_left _ _ hlit]
    unfold headNotWs at hhead
    exact hhead
  · apply trimLeft_of_head
    unfold headNotWs
    rw [List.reverse_append,
      head?_append_left _ _ (by simpa using htne)]
    have h2 := headNotWs_of_trimLeft_id _ ht.2
    unfold headNotWs at h2
    exact h2

/-- A substring of `t` is a substring of `lit ++ t`. -/
theorem incl_append_right (lit t k : JStr) (h : jsIncludes t k = true) :
    jsIncludes (lit ++ t) k = true := by
  rw [jsIncludes, decide_eq_true_eq] at h ⊢
  exact h.trans (List.suffix_append lit t).isInfix

/-- A substring of `lit` is a substring of `lit ++ t`. -/
theorem incl_append_left (lit t k : JStr) (h : jsIncludes lit k = true) :
    jsIncludes (lit ++ t) k = true := by
  rw [jsIncludes, decide_eq_true_eq] at h ⊢
  exact h.trans (List.prefix_append lit t).isInfix

/-- A needle whose first character does not occur in `lit` cannot appear
in `lit ++ t` unless it appears in `t` (every literal the rules prepend
ends in a space and every keyword is space-free, so no occurrence can
straddle the boundary). -/
theorem not_incl_append (kh : Char) (kt lit t : JStr)
    (hlit : ∀ c ∈ lit, c ≠ kh)
    (h : jsIncludes t (kh :: kt) = false) :
    jsIncludes (lit ++ t) (kh :: kt) = false := by
  induction lit with
  | nil => simpa using h
  | cons a l ih =>
    rw [jsIncludes, decide_eq_false_iff_not]
    intro hin
    rw [List.cons_append, List.infix_cons_iff] at hin
    rcases hin with hpre | hinf
    · rw [List.cons_prefix_cons] at hpre
      exact hlit a (List.mem_cons_self a l) hpre.1.symm
    · have hi := ih (fun c hc => hlit c (List.mem_cons_of_mem a hc))
      rw [jsIncludes, decide_eq_false_iff_not] at hi
      exact hi hinf

/-- The shape shared by the eleven idempotent-on-match rules: leave the
string alone when it contains the keyword, else prepend the literal. -/
def condPrefix (k lit t : JStr) : JStr := if jsIncludes t k then t else lit ++ t

theorem condPrefix_fix (k lit t : JStr) (h : jsIncludes t k = true) :
    condPrefix k lit t = t := if_pos h

theorem condPrefix_establishes (k lit t : JStr) (hk : jsIncludes lit k = true) :
    jsIncludes (condPrefix k lit t) k = true := by
  unfold condPrefix
  split
  · assumption
  · exact incl_append_left lit t k hk

theorem condPrefix_mono (k lit t k' : JStr) (h : jsIncludes t k' = true) :
    jsIncludes (condPrefix k lit t) k' = true := by
  unfold condPrefix
  split
  · exact h
  · exact incl_append_right lit t k' h

theorem condPrefix_noupper (k lit t : JStr) (hl : NoUpper lit) (ht : NoUpper t) :
    NoUpper (condPrefix k lit t) := by
  unfold condPrefix
  split
  · exact ht
  · exact noUpper_append hl ht

theorem condPrefix_trimmed (k lit t : JStr) (hlit : lit ≠ [])
    (hhead : headNotWs lit = true) (ht : TrimmedL t) (htne : t ≠ []) :
    TrimmedL (condPrefix k lit t) := by
  unfold condPrefix
  split
  · exact ht
  · exact trimmed_lit_append lit t hlit hhead ht htne

theorem condPrefix_ne_nil (k lit t : JStr) (htne : t ≠ []) :
    condPrefix k lit t ≠ [] := by
  unfold condPrefix
  split
  · exact htne
  · simp [htne]

theorem condPrefix_not_needle (k lit t : JStr) (kh : Char) (kt : JStr)
    (hlit : ∀ c ∈ lit, c ≠ kh)
    (h : jsIncludes t (kh :: kt) = false) :
    jsIncludes (condPrefix k lit t) (kh :: kt) = false := by
  unfold condPrefix
  split
  · exact h
  · exact not_incl_append kh kt lit t hlit h

/-- The eleven tags of the fixed table whose rules are idempotent-on-match. -/
def GOODTAGS : List JStr :=
  ["eyes".data, "environment".data, "lighting".data, "camera".data, "color".data,
   "clothing".data, "fabric".data, "armor".data, "magic".data, "expression".data,
   "pose".data]

/-- The keyword each of these rules tests for. -/
def tagKey (g : JStr) : JStr :=
  if g = "eyes".data then "eye".data
  else if g = "environment".data then "environment".data
  else if g = "lighting".data then "light".data
  else if g = "camera".data then "camera".data
  else if g = "color".data then "color".data
  else if g = "clothing".data then "clothing".data
  else if g = "fabric".data then "fabric".data
  else if g = "armor".data then "armor".data
  else if g = "magic".data then "magic".data
  else if g = "expression".data then "expression".data
  else "pose".data

/-- The literal each of these rules prepends on a miss. -/
def tagLit (g : JStr) : JStr :=
  if g = "eyes".data then "eye ".data
  else if g = "environment".data then "environment ".data
  else if g = "lighting".data then "lighting ".data
  else if g = "camera".data then "camera ".data
  else if g = "color".data then "color style ".data
  else if g = "clothing".data then "clothing ".data
  else if g = "fabric".data then "fabric ".data
  else if g = "armor".data then "armor ".data
  else if g = "magic".data then "magical ".data
  else if g = "expression".data then "expression ".data
  else "pose ".data

/-- Ground facts about each keyword/literal pair: the literal contains
its keyword, is nonempty, starts with a non-whitespace character,
contains no uppercase letter, and contains no `'d'` (the first character
of `"depth"`). -/
theorem goodTag_facts (g : JStr) (hg : g ∈ GOODTAGS) :
    jsIncludes (tagLit g) (tagKey g) = true ∧ tagLit g ≠ [] ∧
    headNotWs (tagLit g) = true ∧ NoUpper (tagLit g) ∧
    (∀ c ∈ tagLit g, c ≠ 'd') := by
  simp only [GOODTAGS, List.mem_cons, List.not_mem_nil, or_false] at hg
  rcases hg with rfl | rfl | rfl | rfl | rfl | rfl | rfl | rfl | rfl | rfl | rfl <;>
    exact ⟨by decide, by decide, by decide, by (unfold NoUpper; decide), by decide⟩

/-- On the eleven good tags (and, for `environment`, away from the
`depth` branch) the table's rule is exactly `condPrefix` of its
keyword/literal pair. -/
theorem applyRule_good (g : JStr) (hg : g ∈ GOODTAGS) (t : JStr)
    (henv : g = "environment".data → jsIncludes t ("depth".data) = false) :
    applyRule t g = condPrefix (tagKey g) (tagLit g) t := by
  simp only [GOODTAGS, List.mem_cons, List.not_mem_nil, or_false] at hg
  rcases hg with rfl | rfl | rfl | rfl | rfl | rfl | rfl | rfl | rfl | rfl | rfl
  · show ruleEyes t = condPrefix ("eye".data) ("eye ".data) t
    by_cases h : jsIncludes t ("eye".data) <;> simp [ruleEyes, condPrefix, h]
  · show ruleEnvironment t = condPrefix ("environment".data) ("environment ".data) t
    have hd := henv rfl
    by_cases h : jsIncludes t ("environment".data) <;>
      simp [ruleEnvironment, condPrefix, h, hd]
  · show ruleLighting t = condPrefix ("light".data) ("lighting ".data) t
    by_cases h : jsIncludes t ("light".data) <;> simp [ruleLighting, condPrefix, h]
  · show ruleCamera t = condPrefix ("camera".data) ("camera ".data) t
    by_cases h : jsIncludes t ("camera".data) <;> simp [ruleCamera, condPrefix, h]
  · show ruleColor t = condPrefix ("color".data) ("color style ".data) t
    by_cases h : jsIncludes t ("color".data) <;> simp [ruleColor, condPrefix, h]
  · show ruleClothing t = condPrefix ("clothing".data) ("clothing ".data) t
    by_cases h : jsIncludes t ("clothing".data) <;> simp [ruleClothing, condPrefix, h]
  · show ruleFabric t = condPrefix ("fabric".data) ("fabric ".data) t
    by_cases h : jsIncludes t ("fabric".data) <;> simp [ruleFabric, condPrefix, h]
  · show ruleArmor t = condPrefix ("armor".data) ("armor ".data) t
    by_cases h : jsIncludes t ("armor".data) <;> simp [ruleArmor, condPrefix, h]
  · show ruleMagic t = condPrefix ("magic".data) ("magical ".data) t
    by_cases h : jsIncludes t ("magic".data) <;> simp [ruleMagic, condPrefix, h]
  · show ruleExpression t = condPrefix ("expression".data) ("expression ".data) t
    by_cases h : jsIncludes t ("expression".data) <;> simp [ruleExpression, condPrefix, h]
  · show rulePose t = condPrefix ("pose".data) ("pose ".data) t
    by_cases h : jsIncludes t ("pose".data) <;> simp [rulePose, condPrefix, h]

/-- The `environment` rule on a string containing `depth` rewrites to the
fixed phrase. -/
theorem applyRule_env_depth (t : JStr) (h : jsIncludes t ("depth".data) = true) :
    applyRule t ("environment".data) = "environment depth layering".data := by
  show ruleEnvironment t = _
  simp [ruleEnvironment, h]

/-- The normal-form invariant carried through the rule chain: no
uppercase letter, trimmed on both ends, nonempty. -/
def CleanStr (t : JStr) : Prop := NoUpper t ∧ TrimmedL t ∧ t ≠ []

theorem applyRule_pres_clean (g : JStr) (hg : g ∈ GOODTAGS) (t : JStr)
    (h : CleanStr t) : CleanStr (applyRule t g) := by
  by_cases hdep : g = "environment".data ∧ jsIncludes t ("depth".data) = true
  · rw [hdep.1, applyRule_env_depth t hdep.2]
    exact ⟨by (unfold NoUpper; decide), by (unfold TrimmedL; decide), by decide⟩
  · have henv : g = "environment".data → jsIncludes t ("depth".data) = false := by
      intro he
      by_contra hcon
      rw [Bool.not_eq_false] at hcon
      exact hdep ⟨he, hcon⟩
    rw [applyRule_good g hg t henv]
    obtain ⟨_, hne, hhead, hnu, _⟩ := goodTag_facts g hg
    exact ⟨condPrefix_noupper _ _ _ hnu h.1,
      condPrefix_trimmed _ _ _ hne hhead h.2.1 h.2.2,
      condPrefix_ne_nil _ _ _ h.2.2⟩

theorem applyRule_pres_noDepth (g : JStr) (hg : g ∈ GOODTAGS) (t : JStr)
    (hdf : jsIncludes t ("depth".data) = false) :
    jsIncludes (applyRule t g) ("depth".data) = false := by
  rw [applyRule_good g hg t (fun _ => hdf)]
  obtain ⟨_, _, _, _, hd⟩ := goodTag_facts g hg
  exact condPrefix_not_needle _ _ _ 'd' ("epth".data) hd hdf

theorem applyRule_pres_incl (g : JStr) (hg : g ∈ GOODTAGS) (t k : JStr)
    (henv : g = "environment".data → jsIncludes t ("depth".data) = false)
    (h : jsIncludes t k = true) : jsIncludes (applyRule t g) k = true := by
  rw [applyRule_good g hg t henv]
  exact condPrefix_mono _ _ _ _ h

theorem applyRule_establish (g : JStr) (hg : g ∈ GOODTAGS) (t : JStr)
    (henv : g = "environment".data → jsIncludes t ("depth".data) = false) :
    jsIncludes (applyRule t g) (tagKey g) = true := by
  rw [applyRule_good g hg t henv]
  exact condPrefix_establishes _ _ _ (goodTag_facts g hg).1

theorem applyRule_pres_depth (g : JStr) (hg : g ∈ GOODTAGS) (t : JStr)
    (h : jsIncludes t ("depth".data) = true) :
    jsIncludes (applyRule t g) ("depth".data) = true := by
  by_cases he : g = "environment".data
  · subst he
    rw [applyRule_env_depth t h]
    decide
  · rw [applyRule_good g hg t (fun hx => absurd hx he)]
    exact condPrefix_mono _ _ _ _ h

theorem applyRule_fix (g : JStr) (hg : g ∈ GOODTAGS) (t : JStr)
    (hinc : jsIncludes t (tagKey g) = true)
    (henv : g = "environment".data → jsIncludes t ("depth".data) = false) :
    applyRule t g = t := by
  rw [applyRule_good g hg t henv]
  exact condPrefix_fix _ _ _ hinc

/-! ### The chain of rules -/

theorem chain_pres_clean (tags : List JStr) (hgood : ∀ g ∈ tags, g ∈ GOODTAGS) :
    ∀ t, CleanStr t → CleanStr (tags.foldl applyRule t) := by
  induction tags with
  | nil => exact fun t h => h
  | cons g rest ih =>
    intro t h
    rw [List.foldl_cons]
    exact ih (fun g' hg' => hgood g' (List.mem_cons_of_mem g hg'))
      _ (applyRule_pres_clean g (hgood g (List.mem_cons_self g rest)) t h)

theorem chain_pres_noDepth (tags : List JStr) (hgood : ∀ g ∈ tags, g ∈ GOODTAGS) :
    ∀ t, jsIncludes t ("depth".data) = false →
      jsIncludes (tags.foldl applyRule t) ("depth".data) = false := by
  induction tags with
  | nil => exact fun t h => h
  | cons g rest ih =>
    intro t h
    rw [List.foldl_cons]
    exact ih (fun g' hg' => hgood g' (List.mem_cons_of_mem g hg'))
      _ (applyRule_pres_noDepth g (hgood g (List.mem_cons_self g rest)) t h)

theorem chain_pres_depth (tags : List JStr) (hgood : ∀ g ∈ tags, g ∈ GOODTAGS) :
    ∀ t, jsIncludes t ("depth".data) = true →
      jsIncludes (tags.foldl applyRule t) ("depth".data) = true := by
  induction tags with
  | nil => exact fun t h => h
  | cons g rest ih =>
    intro t h
    rw [List.foldl_cons]
    exact ih (fun g' hg' => hgood g' (List.mem_cons_of_mem g hg'))
      _ (applyRule_pres_depth g (hgood g (List.mem_cons_self g rest)) t h)

theorem chain_pres_incl (tags : List JStr) (hgood : ∀ g ∈ tags, g ∈ GOODTAGS)
    (k : JStr) :
    ∀ t, ("environment".data ∈ tags → jsIncludes t ("depth".data) = false) →
      jsIncludes t k = true → jsIncludes (tags.foldl applyRule t) k = true := by
  induction tags with
  | nil => exact fun t _ h => h
  | cons g rest ih =>
    intro t hdf h
    rw [List.foldl_cons]
    have hgrest : ∀ g' ∈ rest, g' ∈ GOODTAGS :=
      fun g' hg' => hgood g' (List.mem_cons_of_mem g hg')
    have hghead : g ∈ GOODTAGS := hgood g (List.mem_cons_self g rest)
    have henv : g = "environment".data → jsIncludes t ("depth".data) = false :=
      fun he => hdf (he ▸ List.mem_cons_self g rest)
    refine ih hgrest _ ?_ (applyRule_pres_incl g hghead t k henv h)
    intro he
    exact applyRule_pres_noDepth g hghead t (hdf (List.mem_cons_of_mem g he))

theorem chain_establish (tags : List JStr) (hgood : ∀ g ∈ tags, g ∈ GOODTAGS) :
    ∀ t, ("environment".data ∈ tags → jsIncludes t ("depth".data) = false) →
      ∀ g ∈ tags, jsIncludes (tags.foldl applyRule t) (tagKey g) = true := by
  induction tags with
  | nil => intro t _ g hgm; cases hgm
  | cons g₀ rest ih =>
    intro t hdf g hgm
    rw [List.foldl_cons]
    have hgrest : ∀ g' ∈ rest, g' ∈ GOODTAGS :=
      fun g' hg' => hgood g' (List.mem_cons_of_mem g₀ hg')
    have hghead : g₀ ∈ GOODTAGS := hgood g₀ (List.mem_cons_self g₀ rest)
    have henv : g₀ = "environment".data → jsIncludes t ("depth".data) = false :=
      fun he => hdf (he ▸ List.mem_cons_self g₀ rest)
    have hdf' : "environment".data ∈ rest →
        jsIncludes (applyRule t g₀) ("depth".data) = false :=
      fun he => applyRule_pres_noDepth g₀ hghead t (hdf (List.mem_cons_of_mem g₀ he))
    rcases List.mem_cons.mp hgm with rfl | hgr
    · exact chain_pres_incl rest hgrest (tagKey g) _ hdf'
        (applyRule_establish g hghead t henv)
    · exact ih hgrest _ hdf' g hgr

theorem chain_id (tags : List JStr) (t : JStr)
    (h : ∀ g ∈ tags, applyRule t g = t) : tags.foldl applyRule t = t := by
  induction tags with
  | nil => rfl
  | cons g rest ih =>
    rw [List.foldl_cons, h g (List.mem_cons_self g rest)]
    exact ih (fun g' hg' => h g' (List.mem_cons_of_mem g hg'))

/-- Split a list at the last occurrence of an element. -/
theorem exists_last_split {α : Type} (a : α) (l : List α) (h : a ∈ l) :
    ∃ l₁ l₂, l = l₁ ++ a :: l₂ ∧ a ∉ l₂ := by
  induction l with
  | nil => cases h
  | cons b t ih =>
    by_cases ha : a ∈ t
    · obtain ⟨l₁, l₂, rfl, hn⟩ := ih ha
      exact ⟨b :: l₁, l₂, rfl, hn⟩
    · rcases List.mem_cons.mp h with rfl | hc
      · exact ⟨[], t, rfl, ha⟩
      · exact absurd hc ha

/-- C1 counterexample: the `materials` rule of the fixed table is not
idempotent — it appends `" material texture"` on every pass. -/
theorem C1_counterexample :
    normalizeTemplate (normalizeTemplate ("silk".data) ["materials".data])
        ["materials".data] ≠
      normalizeTemplate ("silk".data) ["materials".data] := by
  decide

/-- C1 (amended): `normalize(normalize(t, tags), tags) = normalize(t, tags)`
for every template whose lower-cased trimmed form is nonempty and every
tag list drawn from the table restricted to `eyes`, `environment`,
`lighting`, `camera`, `color`, `clothing`, `fabric`, `armor`, `magic`,
`expression` and `pose`; the `hair`, `face` and `materials` rules (and
the empty template) break idempotence. -/
theorem C1_normalize_idempotent (template : JStr) (tags : List JStr)
    (htags : ∀ g ∈ tags, g ∈ GOODTAGS)
    (hne : jsTrim (jsToLower template) ≠ []) :
    normalizeTemplate (normalizeTemplate template tags) tags =
      normalizeTemplate template tags := by
  unfold normalizeTemplate
  set x := jsTrim (jsToLower template) with hx
  have hP : CleanStr x := ⟨noUpper_jsTrim (noUpper_jsToLower _), trimmed_jsTrim _, hne⟩
  have hPy := chain_pres_clean tags htags x hP
  set y := tags.foldl applyRule x with hy
  have hpre : jsTrim (jsToLower y) = y := by
    rw [jsToLower_id y hPy.1, jsTrim_id y hPy.2.1]
  rw [hpre]
  by_cases hcase : ("environment".data ∈ tags) ∧ jsIncludes x ("depth".data) = true
  · -- `depth` present and the environment rule in the list: the last
    -- environment occurrence rewrites to the fixed phrase in both passes,
    -- and the rules after it behave identically on it.
    obtain ⟨henvm, hdep⟩ := hcase
    obtain ⟨l₁, l₂, htagsplit, hnotin⟩ := exists_last_split _ tags henvm
    have hgood₁ : ∀ g ∈ l₁, g ∈ GOODTAGS :=
      fun g hgm => htags g (by rw [htagsplit]; simp [hgm])
    have hgood₂ : ∀ g ∈ l₂, g ∈ GOODTAGS :=
      fun g hgm => htags g (by rw [htagsplit]; simp [hgm])
    have hdep₁ : jsIncludes (l₁.foldl applyRule x) ("depth".data) = true :=
      chain_pres_depth l₁ hgood₁ x hdep
    have hyz : y = l₂.foldl applyRule ("environment depth layering".data) := by
      rw [hy, htagsplit, List.foldl_append, List.foldl_cons,
        applyRule_env_depth _ hdep₁]
    have hdepy : jsIncludes y ("depth".data) = true := by
      rw [hyz]
      exact chain_pres_depth l₂ hgood₂ _ (by decide)
    have hdep₁' : jsIncludes (l₁.foldl applyRule y) ("depth".data) = true :=
      chain_pres_depth l₁ hgood₁ y hdepy
    rw [htagsplit, List.foldl_append, List.foldl_cons,
      applyRule_env_depth _ hdep₁', ← hyz]
  · -- otherwise every rule in the list is identity on the first pass's
    -- output
    have hdfx : "environment".data ∈ tags → jsIncludes x ("depth".data) = false := by
      intro he
      by_contra hcon
      rw [Bool.not_eq_false] at hcon
      exact hcase ⟨he, hcon⟩
    have hest := chain_establish tags htags x hdfx
    have hdfy : "environment".data ∈ tags → jsIncludes y ("depth".data) = false :=
      fun he => chain_pres_noDepth tags htags x (hdfx he)
    apply chain_id
    intro g hgm
    exact applyRule_fix g (htags g hgm) y (hest g hgm)
      (fun he => hdfy (he ▸ hgm))

/-- C1 witness: the amended idempotence at a concrete template and tag
list that exercises the environment `depth` rewrite. -/
theorem C1_witness :
    normalizeTemplate
        (normalizeTemplate ("depth".data)
          ["eyes".data, "environment".data, "color".data])
        ["eyes".data, "environment".data, "color".data] =
      normalizeTemplate ("depth".data)
        ["eyes".data, "environment".data, "color".data] :=
  C1_normalize_idempotent ("depth".data)
    ["eyes".data, "environment".data, "color".data]
    (by decide) (by decide)
